import Mathlib

/-!
Verification development for a dollar-cost-averaging backtest tool.

Shallow embedding conventions:
* Python floats are modelled as rationals (`ℚ`); the claims under study are
  algebraic (monotonicity, sign, tier selection, guard behaviour), not about
  binary rounding.
* Calendar dates are modelled as abstract day numbers (`ℕ`); pandas calendar
  resampling periods (week / month-start / quarter-start) are modelled as
  fixed-length blocks of 7 / 30 / 91 days, and calendar years for the
  annual-return grouping as 365-day blocks.
* A float NaN is modelled as `none` in an `Option ℚ`; the pandas skip-NaN
  reductions (`min`, `mean`) become reductions over the `some` entries.
* Operations that are irrational on ℚ (square root, real power, percentile
  interpolation) are abstracted into a `RealOps` record of function
  parameters; every claim proved here holds for all instantiations.
* A Python `raise` is an `Except.error`; a strategy whose `calculate_investment`
  raises is modelled by a decision function returning `Except String`.
-/

set_option maxRecDepth 200000

namespace DCA

/-- Decidable equality for `Except`, used to evaluate closed runs of the
embedded engine. -/
instance {ε α : Type _} [DecidableEq ε] [DecidableEq α] : DecidableEq (Except ε α) := fun a b =>
  match a, b with
  | .ok x, .ok y =>
    if h : x = y then isTrue (by rw [h]) else isFalse (fun hc => h (by injection hc))
  | .error x, .error y =>
    if h : x = y then isTrue (by rw [h]) else isFalse (fun hc => h (by injection hc))
  | .ok _, .error _ => isFalse (fun hc => Except.noConfusion hc)
  | .error _, .ok _ => isFalse (fun hc => Except.noConfusion hc)

/-- Model of `strategies/base_strategy.py::InvestmentDecision` (dataclass with
defaults 1.0 / 0.0 / ""). -/
structure InvestmentDecision where
  investment_multiplier : ℚ := 1
  sell_percentage : ℚ := 0
  reason : String := ""
deriving DecidableEq, Repr

/-- Model of the `portfolio_state` dict built by
`BacktestEngine.run_backtest` and passed to every strategy. -/
structure PortfolioState where
  total_shares : ℚ
  total_cost : ℚ
  current_value : ℚ
  cumulative_return : ℚ
deriving DecidableEq, Repr

/-- A strategy: the `name` property plus `calculate_investment`.  The
historical data argument is the list of (date, close) pairs handed over by
the engine; an exception raised inside the Python method is an
`Except.error`. -/
structure Strategy where
  name : String
  calculate_investment : ℚ → ℕ → List (ℕ × ℚ) → PortfolioState → Except String InvestmentDecision

/-- Market data: the DataFrame column names plus the (date-index, Close)
rows.  Only the Close column carries data in this model; the column list is
kept so that the engine's missing-column validation is faithful. -/
structure MarketData where
  columns : List String
  rows : List (ℕ × ℚ)
deriving DecidableEq, Repr

/-- Investment frequency enumeration, `FREQUENCY_MAP` keys. -/
inductive Frequency where
  | W | M | Q
deriving DecidableEq, Repr

/-- Length in model days of one resampling period (`FREQUENCY_MAP`). -/
def periodLen : Frequency → ℕ
  | .W => 7
  | .M => 30
  | .Q => 91

/-- Abstracted real-valued operations that have no exact ℚ counterpart:
float sqrt, float power, and numpy percentile interpolation.  All theorems
below are proved for every instantiation of this record. -/
structure RealOps where
  sqrt : ℚ → ℚ
  rpow : ℚ → ℚ → ℚ
  percentile : List ℚ → ℚ → ℚ

/-- One row of the transaction ledger appended by
`BacktestEngine.run_backtest` per investment period. -/
structure Transaction where
  date : ℕ
  price : ℚ
  investment : ℚ
  multiplier : ℚ
  shares_bought : ℚ
  shares_sold : ℚ
  sell_proceeds : ℚ
  total_shares : ℚ
  total_cost : ℚ
  current_value : ℚ
  return_pct : ℚ
deriving DecidableEq, Repr

/-- Model of `core/metrics.py::PerformanceMetrics` (dataclass, all fields
defaulting to zero; `annual_returns` defaults to the empty dict).
`max_drawdown` and `calmar_ratio` are `Option ℚ` because a float NaN can
reach them (see `calculate_max_drawdown`); their defaults are `some 0`. -/
structure PerformanceMetrics where
  total_return : ℚ := 0
  total_return_amount : ℚ := 0
  cagr : ℚ := 0
  annual_returns : List (ℕ × ℚ) := []
  max_drawdown : Option ℚ := some 0
  max_drawdown_duration : ℕ := 0
  volatility : ℚ := 0
  downside_volatility : ℚ := 0
  var_99 : ℚ := 0
  sharpe_ratio : ℚ := 0
  sortino_ratio : ℚ := 0
  calmar_ratio : Option ℚ := some 0
  total_trades : ℕ := 0
  average_cost : ℚ := 0
  total_invested : ℚ := 0
  final_value : ℚ := 0
  total_shares : ℚ := 0
  investment_months : ℕ := 0
  investment_years : ℚ := 0
  win_rate : ℚ := 0
deriving DecidableEq, Repr

/-! ## Small list helpers shared by the embedded code -/

/-- Mean of a list; pandas returns NaN on an empty series, callers below
only use this on series guarded to be non-empty. -/
def listMean (l : List ℚ) : ℚ :=
  if l.length = 0 then 0 else l.sum / l.length

/-- Skip-NaN mean (pandas `Series.mean`): NaN entries are `none`; the mean
of an all-NaN series is itself NaN (`none`). -/
def meanSkipNA (l : List (Option ℚ)) : Option ℚ :=
  let xs := l.filterMap id
  if xs.length = 0 then none else some (xs.sum / xs.length)

/-- Sample variance with ddof = 1 (the pandas `std` convention, squared).
Guarded to lists of length ≥ 2 at every call site, like the source. -/
def sampleVar (l : List ℚ) : ℚ :=
  if l.length < 2 then 0
  else ((l.map fun x => (x - listMean l) ^ 2).sum) / ((l.length : ℚ) - 1)

/-- Sample standard deviation (`Series.std`, ddof = 1) via the abstract
square root. -/
def sampleStd (ops : RealOps) (l : List ℚ) : ℚ :=
  ops.sqrt (sampleVar l)

/-- Last `n` elements of a list (pandas `.tail(n)`). -/
def takeLast (n : ℕ) (l : List α) : List α :=
  l.drop (l.length - n)

/-- Model of `values.pct_change().dropna()` followed by dropping ±inf
(as `core/metrics.py` does with `replace([inf,-inf], nan).dropna()`):
successive ratios `(b - a) / a`, keeping only pairs whose denominator is
non-zero.  The volatility strategy applies plain `pct_change().dropna()` to
a positive price series, on which the two coincide. -/
def periodReturns (values : List ℚ) : List ℚ :=
  (values.zip values.tail).filterMap fun ab =>
    if ab.1 = 0 then none else some ((ab.2 - ab.1) / ab.1)

/-- Auxiliary for `runningMax`. -/
def runningMaxAux (m : ℚ) : List ℚ → List ℚ
  | [] => []
  | x :: xs => max m x :: runningMaxAux (max m x) xs

/-- Model of `values.expanding().max()`. -/
def runningMax : List ℚ → List ℚ
  | [] => []
  | x :: xs => x :: runningMaxAux x xs

/-- Rolling sample standard deviation (`Series.rolling(window).std()`):
position `i` is NaN (`none`) until a full window of `window ≥ 2`
observations is available. -/
def rollingStd (ops : RealOps) (window : ℕ) (l : List ℚ) : List (Option ℚ) :=
  (List.range l.length).map fun i =>
    if i + 1 < window ∨ window < 2 then none
    else some (sampleStd ops ((l.drop (i + 1 - window)).take window))

/-! ## Metrics calculator (`core/metrics.py::MetricsCalculator`) -/

/-- `MetricsCalculator.calculate_total_return`. -/
def calculate_total_return (total_cost final_value : ℚ) : ℚ :=
  if total_cost ≤ 0 then 0
  else (final_value - total_cost) / total_cost * 100

/-- `MetricsCalculator.calculate_cagr`; the float power is the abstract
`ops.rpow`. -/
def calculate_cagr (ops : RealOps) (total_cost final_value years : ℚ) : ℚ :=
  if total_cost ≤ 0 ∨ years ≤ 0 ∨ final_value ≤ 0 then 0
  else (ops.rpow (final_value / total_cost) (1 / years) - 1) * 100

/-- Model year of a model date (`.dt.year` with years as 365-day blocks). -/
def yearOf (d : ℕ) : ℕ := d / 365

/-- `MetricsCalculator.calculate_annual_returns`. -/
def calculate_annual_returns (transactions : List Transaction) : List (ℕ × ℚ) :=
  match transactions with
  | [] => []
  | t0 :: rest =>
    let ts := t0 :: rest
    let years := List.insertionSort (· ≤ ·) ((ts.map fun t => yearOf t.date).dedup)
    years.filterMap fun year =>
      match ts.filter (fun t => yearOf t.date = year) with
      | [] => none
      | y0 :: ys =>
        let year_end := (y0 :: ys).getLast (List.cons_ne_nil y0 ys)
        let start_value := y0.current_value - y0.investment
        let invested := ((y0 :: ys).map fun t => t.investment).sum
        if start_value > 0 then
          some (year, (year_end.current_value - start_value - invested) / start_value * 100)
        else
          some (year, year_end.return_pct)

/-- `MetricsCalculator.calculate_max_drawdown`.  A drawdown entry with a
zero running peak is `0/0`, a float NaN, modelled as `none`; the skip-NaN
`min` of an all-NaN series is again NaN, hence the result's first component
is an `Option`.  The engine's ledgers carry a plain range index (not a
DatetimeIndex), so the duration branch taken in every engine call is the
`else: duration = 0` one. -/
def calculate_max_drawdown (values : List ℚ) : Option ℚ × ℕ :=
  if values.length < 2 then (some 0, 0)
  else
    let running := runningMax values
    let drawdowns := (values.zip running).filterMap fun vm =>
      if vm.2 = 0 then none else some ((vm.1 - vm.2) / vm.2 * 100)
    match drawdowns.min? with
    | none => (none, 0)
    | some m => (some |m|, 0)

/-- `MetricsCalculator.calculate_volatility`. -/
def calculate_volatility (ops : RealOps) (returns : List ℚ) (periods_per_year : ℕ) : ℚ :=
  if returns.length < 2 then 0
  else sampleStd ops returns * ops.sqrt periods_per_year * 100

/-- `MetricsCalculator.calculate_downside_volatility`. -/
def calculate_downside_volatility (ops : RealOps) (returns : List ℚ)
    (periods_per_year : ℕ) (threshold : ℚ) : ℚ :=
  if returns.length = 0 then 0
  else
    let downside_returns := returns.filter fun r => r < threshold
    if downside_returns.length < 2 then 0
    else sampleStd ops downside_returns * ops.sqrt periods_per_year * 100

/-- `MetricsCalculator.calculate_var`; numpy percentile interpolation is
the abstract `ops.percentile`. -/
def calculate_var (ops : RealOps) (returns : List ℚ) (percentile : ℚ) : ℚ :=
  if returns.length = 0 then 0
  else ops.percentile returns (percentile * 100) * 100

/-- `MetricsCalculator.calculate_sharpe_ratio`. -/
def calculate_sharpe_ratio (risk_free_rate cagr volatility : ℚ) : ℚ :=
  if volatility ≤ 0 then 0
  else (cagr - risk_free_rate * 100) / volatility

/-- `MetricsCalculator.calculate_sortino_ratio`. -/
def calculate_sortino_ratio (risk_free_rate cagr downside_vol : ℚ) : ℚ :=
  if downside_vol ≤ 0 then 0
  else (cagr - risk_free_rate * 100) / downside_vol

/-- `MetricsCalculator.calculate_calmar_ratio`.  Its `max_drawdown`
argument may be NaN (`none`): `NaN <= 0` is false in Python and
`cagr / NaN` is NaN again, so `none` propagates. -/
def calculate_calmar_ratio (cagr : ℚ) (max_drawdown : Option ℚ) : Option ℚ :=
  match max_drawdown with
  | none => none
  | some md => if md ≤ 0 then some 0 else some (cagr / md)

/-- `MetricsCalculator.calculate_win_rate`. -/
def calculate_win_rate (transactions : List Transaction) : ℚ :=
  match transactions with
  | [] => 0
  | t0 :: rest =>
    let ts := t0 :: rest
    let positive_periods := (ts.filter fun t => t.return_pct > 0).length
    if ts.length = 0 then 0
    else (positive_periods : ℚ) / (ts.length : ℚ) * 100

/-- `MetricsCalculator.calculate_all_metrics`.  The engine's equity curve
is a column projection of the ledger, so the value series used for the
risk block is `transactions.map current_value`, exactly the
`equity_curve['value']` column. -/
def calculate_all_metrics (ops : RealOps) (risk_free_rate : ℚ)
    (transactions : List Transaction) : PerformanceMetrics :=
  match transactions with
  | [] => {}
  | t0 :: rest =>
    let ts := t0 :: rest
    let last := ts.getLast (List.cons_ne_nil t0 rest)
    let total_invested := last.total_cost
    let final_value := last.current_value
    let total_shares := last.total_shares
    let total_return := calculate_total_return total_invested final_value
    let investment_years := ((last.date : ℚ) - (t0.date : ℚ)) / (1461 / 4 : ℚ)
    let cagr := calculate_cagr ops total_invested final_value investment_years
    let values := ts.map fun t => t.current_value
    let returns := periodReturns values
    let mdd := calculate_max_drawdown values
    let volatility := if 1 < returns.length then calculate_volatility ops returns 12 else 0
    let downside_volatility :=
      if 1 < returns.length then calculate_downside_volatility ops returns 12 0 else 0
    { total_return := total_return
      total_return_amount := final_value - total_invested
      cagr := cagr
      annual_returns := calculate_annual_returns ts
      max_drawdown := mdd.1
      max_drawdown_duration := mdd.2
      volatility := volatility
      downside_volatility := downside_volatility
      var_99 := if 1 < returns.length then calculate_var ops returns (1 / 100) else 0
      sharpe_ratio :=
        if 1 < returns.length then calculate_sharpe_ratio risk_free_rate cagr volatility else 0
      sortino_ratio :=
        if 1 < returns.length then
          calculate_sortino_ratio risk_free_rate cagr downside_volatility
        else 0
      calmar_ratio :=
        if 1 < returns.length then calculate_calmar_ratio cagr mdd.1 else some 0
      total_trades := ts.length
      average_cost := if total_shares > 0 then total_invested / total_shares else 0
      total_invested := total_invested
      final_value := final_value
      total_shares := total_shares
      investment_months := ts.length
      investment_years := investment_years
      win_rate := calculate_win_rate ts }

/-! ## Strategies -/

/-- `strategies/dca_pure.py::DCAPureStrategy`. -/
def DCAPureStrategy : Strategy where
  name := "純定期定額 (Pure DCA)"
  calculate_investment := fun _ _ _ _ =>
    .ok { investment_multiplier := 1, sell_percentage := 0, reason := "Fixed periodic investment" }

/-- Default parameters of `DCADipBuyingStrategy`. -/
structure DipParams where
  lookback_period : ℕ := 252
  dip_threshold_1 : ℚ := 1/10
  multiplier_1 : ℚ := 3/2
  dip_threshold_2 : ℚ := 1/5
  multiplier_2 : ℚ := 2
deriving DecidableEq, Repr

/-- Prices of the historical series restricted to dates ≤ the current date
(the strategy re-applies the engine's filter). -/
def dipRelevant (historical_data : List (ℕ × ℚ)) (current_date : ℕ) : List (ℕ × ℚ) :=
  historical_data.filter fun q => q.1 ≤ current_date

/-- The `.tail(lookback)` window of close prices. -/
def dipLookback (lookback : ℕ) (relevant : List (ℕ × ℚ)) : List ℚ :=
  (takeLast lookback relevant).map Prod.snd

/-- The trailing high `lookback_prices.max()`; the max of an empty window
(NaN in pandas) is modelled as 0, which lands in the same neutral branch. -/
def dipRecentHigh (lookback : ℕ) (historical_data : List (ℕ × ℚ)) (current_date : ℕ) : ℚ :=
  ((dipLookback lookback (dipRelevant historical_data current_date)).max?).getD 0

/-- `strategies/dca_dip_buying.py::DCADipBuyingStrategy`.  The historical
data is already the (date, Close) series, so the column selection of the
source is implicit.  Interpolated numbers are omitted from the diagnostic
reason strings (they are documented as computation-irrelevant). -/
def DCADipBuyingStrategy (p : DipParams) : Strategy where
  name := "跌深加碼 (Dip Buying)"
  calculate_investment := fun current_price current_date historical_data _ =>
    let relevant_prices := dipRelevant historical_data current_date
    if relevant_prices.length < 2 then
      .ok { investment_multiplier := 1, reason := "Insufficient historical data" }
    else
      let recent_high := dipRecentHigh p.lookback_period historical_data current_date
      if recent_high ≤ 0 then
        .ok { investment_multiplier := 1, reason := "Invalid price data" }
      else
        let drawdown := (recent_high - current_price) / recent_high
        if drawdown ≥ p.dip_threshold_2 then
          .ok { investment_multiplier := p.multiplier_2, reason := "跌幅 ≥ 第二級閾值，加碼" }
        else if drawdown ≥ p.dip_threshold_1 then
          .ok { investment_multiplier := p.multiplier_1, reason := "跌幅 ≥ 第一級閾值，加碼" }
        else
          .ok { investment_multiplier := 1, reason := "跌幅 < 第一級閾值，正常投入" }

/-- Default parameters of `DCATrendFilterStrategy`. -/
structure TrendParams where
  ma_period : ℕ := 200
  ma_type : String := "SMA"
  above_multiplier : ℚ := 1
  below_multiplier : ℚ := 3/2
deriving DecidableEq, Repr

/-- Last value of `prices.rolling(window=period, min_periods=1).mean()`. -/
def smaLast (period : ℕ) (prices : List ℚ) : ℚ :=
  listMean (takeLast period prices)

/-- Last value of `prices.ewm(span=period, adjust=False).mean()`. -/
def emaLast (span : ℕ) (prices : List ℚ) : ℚ :=
  match prices with
  | [] => 0
  | x :: xs =>
    xs.foldl (fun e v => (2 / ((span : ℚ) + 1)) * v + (1 - 2 / ((span : ℚ) + 1)) * e) x

/-- `strategies/dca_trend_filter.py::DCATrendFilterStrategy`. -/
def DCATrendFilterStrategy (p : TrendParams) : Strategy where
  name := "趨勢過濾 (Trend Filter)"
  calculate_investment := fun current_price current_date historical_data _ =>
    let relevant_prices := (historical_data.filter fun q => q.1 ≤ current_date).map Prod.snd
    if relevant_prices.length < p.ma_period then
      .ok { investment_multiplier := 1, reason := "數據不足，正常投入" }
    else
      let current_ma :=
        if p.ma_type = "EMA" then emaLast p.ma_period relevant_prices
        else smaLast p.ma_period relevant_prices
      if current_price < current_ma then
        .ok { investment_multiplier := p.below_multiplier, reason := "價格低於均線，加碼" }
      else
        .ok { investment_multiplier := p.above_multiplier, reason := "價格高於均線，正常投入" }

/-- Default parameters of `DCAVolatilityStrategy`. -/
structure VolParams where
  volatility_window : ℕ := 20
  lookback_period : ℕ := 252
  high_vol_threshold : ℚ := 3/2
  low_vol_threshold : ℚ := 4/5
  high_vol_multiplier : ℚ := 3/2
  low_vol_multiplier : ℚ := 4/5
deriving DecidableEq, Repr

/-- `DCAVolatilityStrategy._calculate_volatility`: rolling annualized
volatility of the daily returns. -/
def volRollingVol (ops : RealOps) (window : ℕ) (prices : List ℚ) : List (Option ℚ) :=
  (rollingStd ops window (periodReturns prices)).map (Option.map fun s => s * ops.sqrt 252)

/-- The minimum history demanded by the volatility strategy. -/
def volMinRequired (p : VolParams) : ℕ :=
  max p.volatility_window p.lookback_period + 1

/-- The lookback-average volatility (`volatility.tail(lookback).mean()`,
skip-NaN). -/
def volAvgVol (ops : RealOps) (p : VolParams) (prices : List ℚ) : Option ℚ :=
  meanSkipNA (takeLast p.lookback_period (volRollingVol ops p.volatility_window prices))

/-- The current volatility `volatility.iloc[-1]` (NaN when the window is
not yet full). -/
def volCurrentVol (ops : RealOps) (p : VolParams) (prices : List ℚ) : Option ℚ :=
  ((volRollingVol ops p.volatility_window prices).getLast?).getD none

/-- `strategies/dca_volatility.py::DCAVolatilityStrategy`. -/
def DCAVolatilityStrategy (p : VolParams) (ops : RealOps) : Strategy where
  name := "波動率調整 (Volatility Adjustment)"
  calculate_investment := fun _ current_date historical_data _ =>
    let relevant_prices := (historical_data.filter fun q => q.1 ≤ current_date).map Prod.snd
    if relevant_prices.length < volMinRequired p then
      .ok { investment_multiplier := 1, reason := "數據不足，正常投入" }
    else
      let current_vol := volCurrentVol ops p relevant_prices
      let avg_vol := volAvgVol ops p relevant_prices
      match current_vol, avg_vol with
      | some cv, some av =>
        if av = 0 then
          .ok { investment_multiplier := 1, reason := "波動率計算失敗，正常投入" }
        else
          let vol_ratio := cv / av
          if vol_ratio ≥ p.high_vol_threshold then
            .ok { investment_multiplier := p.high_vol_multiplier, reason := "高波動，加碼" }
          else if vol_ratio ≤ p.low_vol_threshold then
            .ok { investment_multiplier := p.low_vol_multiplier, reason := "低波動，減碼" }
          else
            .ok { investment_multiplier := 1, reason := "正常波動，正常投入" }
      | _, _ =>
        .ok { investment_multiplier := 1, reason := "波動率計算失敗，正常投入" }

/-! ## Backtest engine (`core/backtest_engine.py::BacktestEngine`) -/

/-- Engine error taxonomy: the four input validations raise
`InvalidInputError` (Python `ValueError`); an exception escaping a
strategy's decide call is a strategy failure. -/
inductive EngineError where
  | invalidInput (msg : String)
  | strategyFailure (msg : String)
deriving DecidableEq, Repr

/-- Message text of an engine error. -/
def EngineError.message : EngineError → String
  | .invalidInput m => m
  | .strategyFailure m => m

/-- Running totals of the simulation loop. -/
structure EngineState where
  total_shares : ℚ
  total_cost : ℚ
deriving DecidableEq, Repr

/-- Result container (`BacktestResult`).  The equity curve of the source is
a column projection of `transactions` and the decision log is diagnostic
only; both are derivable from the ledger and omitted here. -/
structure BacktestResult where
  symbol : String
  strategy_name : String
  start_date : ℕ
  end_date : ℕ
  frequency : Frequency
  base_investment : ℚ
  transactions : List Transaction
  metrics : PerformanceMetrics
deriving DecidableEq, Repr

/-- One period of the simulation loop (`run_backtest` lines 163-197):
optional sell, then buy, then the appended ledger row. -/
def engineStep (base_investment : ℚ) (invest_date : ℕ) (price : ℚ)
    (decision : InvestmentDecision) (s : EngineState) : EngineState × Transaction :=
  let investment := base_investment * decision.investment_multiplier
  let shares_sold :=
    if decision.sell_percentage > 0 ∧ s.total_shares > 0 then
      s.total_shares * decision.sell_percentage
    else 0
  let sell_proceeds := shares_sold * price
  let shares_bought := investment / price
  let total_shares := s.total_shares - shares_sold + shares_bought
  let total_cost := s.total_cost + investment
  let current_value := total_shares * price
  let return_pct :=
    if total_cost > 0 then (current_value - total_cost) / total_cost * 100 else 0
  (⟨total_shares, total_cost⟩,
   { date := invest_date, price := price, investment := investment,
     multiplier := decision.investment_multiplier,
     shares_bought := shares_bought, shares_sold := shares_sold,
     sell_proceeds := sell_proceeds, total_shares := total_shares,
     total_cost := total_cost, current_value := current_value,
     return_pct := return_pct })

/-- The simulation loop over the resampled investment points.  Every
period recomputes the pre-action portfolio state and queries the strategy
with the historical data up to the investment date; a strategy exception
aborts the run. -/
def runPeriods (strategy : Strategy) (base_investment : ℚ) (data : List (ℕ × ℚ)) :
    List (ℕ × ℚ) → EngineState → Except EngineError (List Transaction)
  | [], _ => .ok []
  | (invest_date, price) :: rest, s =>
    let historical := data.filter fun q => q.1 ≤ invest_date
    let current_value := s.total_shares * price
    let cumulative_return :=
      if s.total_cost > 0 then (current_value - s.total_cost) / s.total_cost * 100 else 0
    let portfolio_state : PortfolioState :=
      ⟨s.total_shares, s.total_cost, current_value, cumulative_return⟩
    match strategy.calculate_investment price invest_date historical portfolio_state with
    | .error msg => .error (.strategyFailure msg)
    | .ok decision =>
      let st := engineStep base_investment invest_date price decision s
      match runPeriods strategy base_investment data rest st.1 with
      | .error e => .error e
      | .ok ts => .ok (st.2 :: ts)

/-- The engine's `data.sort_index()` (stable sort by date index). -/
def sortedData (md : MarketData) : List (ℕ × ℚ) :=
  List.insertionSort (fun a b : ℕ × ℚ => a.1 ≤ b.1) md.rows

/-- The `[start_date, end_date]` restriction of the sorted data. -/
def filterRange (start_date end_date : Option ℕ) (data : List (ℕ × ℚ)) : List (ℕ × ℚ) :=
  let d1 := match start_date with
    | some sd => data.filter fun q => sd ≤ q.1
    | none => data
  match end_date with
  | some ed => d1.filter fun q => q.1 ≤ ed
  | none => d1

/-- Auxiliary for `resample`: skips further rows of the current period. -/
def resampleAux (w : ℕ) (cur : ℕ) : List (ℕ × ℚ) → List (ℕ × ℚ)
  | [] => []
  | (d, p) :: rest =>
    if d / w = cur then resampleAux w cur rest
    else (d / w * w, p) :: resampleAux w (d / w) rest

/-- Model of `data['Close'].resample(rule).first().dropna()` on the sorted
series: the first close of each non-empty fixed-length period, indexed by
the period-start bin label (as pandas labels resampled bins). -/
def resample (w : ℕ) : List (ℕ × ℚ) → List (ℕ × ℚ)
  | [] => []
  | (d, p) :: rest => (d / w * w, p) :: resampleAux w (d / w) rest

/-- The restricted, sorted data used by one run. -/
def restrictedData (md : MarketData) (start_date end_date : Option ℕ) : List (ℕ × ℚ) :=
  filterRange start_date end_date (sortedData md)

/-- The resampled investment points of one run. -/
def investmentPoints (md : MarketData) (start_date end_date : Option ℕ)
    (frequency : Frequency) : List (ℕ × ℚ) :=
  resample (periodLen frequency) (restrictedData md start_date end_date)

/-- `BacktestEngine.run_backtest`.  `risk_free_rate` is the engine field
handed to the metrics calculator.  Zero or negative close prices are
outside the modelled domain (the PriceSeries invariant demands positive
prices; in the source a zero price would raise `ZeroDivisionError` at the
buy step). -/
def run_backtest (ops : RealOps) (risk_free_rate : ℚ) (strategy : Strategy)
    (market_data : MarketData) (start_date end_date : Option ℕ)
    (frequency : Frequency) (base_investment : ℚ) (symbol : String) :
    Except EngineError BacktestResult :=
  if market_data.rows = [] then
    .error (.invalidInput "Market data is empty")
  else if "Close" ∉ market_data.columns then
    .error (.invalidInput "Market data must have 'Close' column")
  else
    let data := restrictedData market_data start_date end_date
    if data = [] then
      .error (.invalidInput "No data in specified date range")
    else
      match investmentPoints market_data start_date end_date frequency with
      | [] => .error (.invalidInput "Insufficient data points for backtest")
      | [_] => .error (.invalidInput "Insufficient data points for backtest")
      | p1 :: p2 :: ps =>
        match runPeriods strategy base_investment data (p1 :: p2 :: ps) ⟨0, 0⟩ with
        | .error e => .error e
        | .ok transactions =>
          .ok { symbol := symbol
                strategy_name := strategy.name
                start_date := p1.1
                end_date := ((p1 :: p2 :: ps).getLast (List.cons_ne_nil p1 (p2 :: ps))).1
                frequency := frequency
                base_investment := base_investment
                transactions := transactions
                metrics := calculate_all_metrics ops risk_free_rate transactions }

/-- `BacktestEngine.run_batch_backtest`: per-strategy failures are caught
and printed, successful results collected.  The printed error lines are
returned alongside the results so the surfaced failure identities are part
of the model. -/
def run_batch_backtest (ops : RealOps) (risk_free_rate : ℚ) (strategies : List Strategy)
    (market_data : MarketData) (start_date end_date : Option ℕ)
    (frequency : Frequency) (base_investment : ℚ) (symbol : String) :
    List BacktestResult × List String :=
  match strategies with
  | [] => ([], [])
  | s :: rest =>
    let tailOut := run_batch_backtest ops risk_free_rate rest market_data
      start_date end_date frequency base_investment symbol
    match run_backtest ops risk_free_rate s market_data start_date end_date
      frequency base_investment symbol with
    | .ok r => (r :: tailOut.1, tailOut.2)
    | .error e =>
      (tailOut.1, ("Error running " ++ s.name ++ ": " ++ e.message) :: tailOut.2)

/-! ## Robustness harness (`core/robustness.py::RobustnessAnalyzer`)

Each mode is modelled together with its progress trace: the list of
`(completed, total)` pairs passed to the progress callback, in call order.
The Monte Carlo mode increments its completion counter inside the
`as_completed` loop of the submitting thread, so its trace is sequential
regardless of the worker-pool size; completion order may permute the
result rows but never the counter.  The random generation of simulation
windows (`random.randint`) is outside the deterministic model: the drawn
windows are taken as an input list. -/

/-- The maximum date of a market data set (`market_data.index.max()`). -/
def maxDate (md : MarketData) : ℕ :=
  ((md.rows.map Prod.fst).max?).getD 0

/-- One row of the fixed-start-points result table; metric cells are
`none` in an error row. -/
structure FixedRow where
  start_date : ℕ
  end_date : ℕ
  months : ℕ
  total_return : Option ℚ
  cagr : Option ℚ
  max_drawdown : Option (Option ℚ)
  sharpe_ratio : Option ℚ
  final_value : Option ℚ
  error : Option String
deriving DecidableEq, Repr

/-- Loop of `test_fixed_start_points`: one engine run per start date, an
error marker on failure, and a progress call after every unit. -/
def fixedLoop (ops : RealOps) (risk_free_rate : ℚ) (strategy : Strategy)
    (market_data : MarketData) (end_date : ℕ) (frequency : Frequency)
    (base_investment : ℚ) :
    List ℕ → ℕ → ℕ → List FixedRow × List (ℕ × ℕ)
  | [], _, _ => ([], [])
  | sd :: rest, i, total =>
    let row : FixedRow :=
      match run_backtest ops risk_free_rate strategy market_data (some sd)
        (some end_date) frequency base_investment "" with
      | .ok r =>
        { start_date := sd, end_date := end_date,
          months := r.metrics.investment_months,
          total_return := some r.metrics.total_return,
          cagr := some r.metrics.cagr,
          max_drawdown := some r.metrics.max_drawdown,
          sharpe_ratio := some r.metrics.sharpe_ratio,
          final_value := some r.metrics.final_value, error := none }
      | .error e =>
        { start_date := sd, end_date := end_date, months := 0,
          total_return := none, cagr := none, max_drawdown := none,
          sharpe_ratio := none, final_value := none,
          error := some e.message }
    let tailOut := fixedLoop ops risk_free_rate strategy market_data end_date
      frequency base_investment rest (i + 1) total
    (row :: tailOut.1, (i + 1, total) :: tailOut.2)

/-- `RobustnessAnalyzer.test_fixed_start_points` (with the default-date
and default-end-date resolution applied by the caller as in the source). -/
def test_fixed_start_points (ops : RealOps) (risk_free_rate : ℚ) (strategy : Strategy)
    (market_data : MarketData) (test_dates : List ℕ) (end_date : Option ℕ)
    (frequency : Frequency) (base_investment : ℚ) :
    List FixedRow × List (ℕ × ℕ) :=
  let ed := match end_date with
    | some e => e
    | none => maxDate market_data
  fixedLoop ops risk_free_rate strategy market_data ed frequency base_investment
    test_dates 0 test_dates.length

/-- A Monte Carlo simulation window (one random draw). -/
structure SimWindow where
  start_date : ℕ
  end_date : ℕ
deriving DecidableEq, Repr

/-- One Monte Carlo result row. -/
structure SimResult where
  start_date : ℕ
  end_date : ℕ
  duration_years : ℚ
  total_return : ℚ
  cagr : ℚ
  max_drawdown : Option ℚ
  sharpe_ratio : ℚ
deriving DecidableEq, Repr

/-- `monte_carlo_simulation.run_single_simulation`: any failure becomes
`None`. -/
def run_single_simulation (ops : RealOps) (risk_free_rate : ℚ) (strategy : Strategy)
    (market_data : MarketData) (frequency : Frequency) (base_investment : ℚ)
    (sim : SimWindow) : Option SimResult :=
  match run_backtest ops risk_free_rate strategy market_data (some sim.start_date)
    (some sim.end_date) frequency base_investment "" with
  | .ok r =>
    some { start_date := sim.start_date, end_date := sim.end_date,
           duration_years := r.metrics.investment_years,
           total_return := r.metrics.total_return,
           cagr := r.metrics.cagr,
           max_drawdown := r.metrics.max_drawdown,
           sharpe_ratio := r.metrics.sharpe_ratio }
  | .error _ => none

/-- Median of a series (sorted middle, or mean of the two middles). -/
def listMedian (l : List ℚ) : ℚ :=
  let sorted := List.insertionSort (· ≤ ·) l
  if l.length = 0 then 0
  else if l.length % 2 = 1 then
    (sorted.drop (l.length / 2)).headD 0
  else
    (((sorted.drop (l.length / 2 - 1)).headD 0) + ((sorted.drop (l.length / 2)).headD 0)) / 2

/-- Sample standard deviation of a series; NaN (`none`) below two points,
as `Series.std` with ddof = 1. -/
def stdOfSeries (ops : RealOps) (l : List ℚ) : Option ℚ :=
  if l.length < 2 then none else some (sampleStd ops l)

/-- Skip-NaN maximum of an Option series (`Series.max`). -/
def maxSkipNA (l : List (Option ℚ)) : Option ℚ :=
  (l.filterMap id).max?

/-- Aggregate statistics of a Monte Carlo batch (the `stats` dict). -/
structure MCStats where
  num_simulations : ℕ
  returns_mean : ℚ
  returns_median : ℚ
  returns_std : Option ℚ
  returns_min : ℚ
  returns_max : ℚ
  returns_p5 : ℚ
  returns_p95 : ℚ
  cagr_mean : ℚ
  cagr_median : ℚ
  cagr_std : Option ℚ
  win_rate : ℚ
  sharpe_mean : ℚ
  sharpe_median : ℚ
  mdd_mean : Option ℚ
  mdd_worst : Option ℚ
  raw_results : List SimResult
deriving DecidableEq, Repr

/-- Collection loop of `monte_carlo_simulation`: successful rows are
collected, the completion counter advances for success and failure alike,
and the callback fires after each completed unit. -/
def monteCarloLoop (ops : RealOps) (risk_free_rate : ℚ) (strategy : Strategy)
    (market_data : MarketData) (frequency : Frequency) (base_investment : ℚ) :
    List SimWindow → ℕ → ℕ → List SimResult × List (ℕ × ℕ)
  | [], _, _ => ([], [])
  | sim :: rest, completed, total =>
    let res := run_single_simulation ops risk_free_rate strategy market_data
      frequency base_investment sim
    let tailOut := monteCarloLoop ops risk_free_rate strategy market_data
      frequency base_investment rest (completed + 1) total
    (match res with
     | some r => r :: tailOut.1
     | none => tailOut.1,
     (completed + 1, total) :: tailOut.2)

/-- `RobustnessAnalyzer.monte_carlo_simulation` from the point where the
random windows have been drawn.  `num_workers` sizes the thread pool of
the source; the counter and callback live in the submitting thread, so the
output is independent of it. -/
def monte_carlo_simulation (ops : RealOps) (risk_free_rate : ℚ) (strategy : Strategy)
    (market_data : MarketData) (frequency : Frequency) (base_investment : ℚ)
    (num_workers : ℕ) (simulations : List SimWindow) :
    Except String MCStats × List (ℕ × ℕ) :=
  let _ := num_workers
  let out := monteCarloLoop ops risk_free_rate strategy market_data frequency
    base_investment simulations 0 simulations.length
  let results := out.1
  if results = [] then
    (.error "No successful simulations", out.2)
  else
    let rets := results.map fun r => r.total_return
    let cagrs := results.map fun r => r.cagr
    let sharpes := results.map fun r => r.sharpe_ratio
    let mdds := results.map fun r => r.max_drawdown
    (.ok { num_simulations := results.length
           returns_mean := listMean rets
           returns_median := listMedian rets
           returns_std := stdOfSeries ops rets
           returns_min := (rets.min?).getD 0
           returns_max := (rets.max?).getD 0
           returns_p5 := ops.percentile rets 5
           returns_p95 := ops.percentile rets 95
           cagr_mean := listMean cagrs
           cagr_median := listMedian cagrs
           cagr_std := stdOfSeries ops cagrs
           win_rate := ((rets.filter fun r => r > 0).length : ℚ) / (rets.length : ℚ) * 100
           sharpe_mean := listMean sharpes
           sharpe_median := listMedian sharpes
           mdd_mean := meanSkipNA mdds
           mdd_worst := maxSkipNA mdds
           raw_results := results }, out.2)

/-- One row of the rolling-window result table. -/
structure RollingRow where
  window_start : ℕ
  window_end : ℕ
  total_return : ℚ
  cagr : ℚ
  max_drawdown : Option ℚ
  sharpe_ratio : ℚ
deriving DecidableEq, Repr

/-- The window list generated by the while-loop of
`rolling_window_analysis`: starts advance by `step_days` while the full
window still fits in the data span.  A zero step diverges in the source
(the UI enforces at least one month); the model returns no windows. -/
def rollingWindows (window_days step_days data_start data_end : ℕ) : List (ℕ × ℕ) :=
  if step_days = 0 then []
  else
    let numWindows :=
      if data_start + window_days ≤ data_end then
        (data_end - (data_start + window_days)) / step_days + 1
      else 0
    (List.range numWindows).map fun k =>
      (data_start + k * step_days, data_start + k * step_days + window_days)

/-- Loop of `rolling_window_analysis`: failed windows are silently
skipped, the callback fires after every window. -/
def rollingLoop (ops : RealOps) (risk_free_rate : ℚ) (strategy : Strategy)
    (market_data : MarketData) (frequency : Frequency) (base_investment : ℚ) :
    List (ℕ × ℕ) → ℕ → ℕ → List RollingRow × List (ℕ × ℕ)
  | [], _, _ => ([], [])
  | w :: rest, i, total =>
    let tailOut := rollingLoop ops risk_free_rate strategy market_data frequency
      base_investment rest (i + 1) total
    let rows :=
      match run_backtest ops risk_free_rate strategy market_data (some w.1)
        (some w.2) frequency base_investment "" with
      | .ok r =>
        { window_start := w.1, window_end := w.2,
          total_return := r.metrics.total_return,
          cagr := r.metrics.cagr,
          max_drawdown := r.metrics.max_drawdown,
          sharpe_ratio := r.metrics.sharpe_ratio } :: tailOut.1
      | .error _ => tailOut.1
    (rows, (i + 1, total) :: tailOut.2)

/-- The window list of one rolling analysis over a data set. -/
def rollingWindowsOf (market_data : MarketData) (window_years : ℚ) (step_months : ℕ) :
    List (ℕ × ℕ) :=
  rollingWindows ((window_years * 365).floor.toNat) (step_months * 30)
    (((market_data.rows.map Prod.fst).min?).getD 0) (maxDate market_data)

/-- `RobustnessAnalyzer.rolling_window_analysis`.  `window_years` is the
configured span; `int(window_years * 365)` is the floor on positives. -/
def rolling_window_analysis (ops : RealOps) (risk_free_rate : ℚ) (strategy : Strategy)
    (market_data : MarketData) (window_years : ℚ) (step_months : ℕ)
    (frequency : Frequency) (base_investment : ℚ) :
    List RollingRow × List (ℕ × ℕ) :=
  let windows := rollingWindowsOf market_data window_years step_months
  rollingLoop ops risk_free_rate strategy market_data frequency base_investment
    windows 0 windows.length

/-- One row of the cross-market result table. -/
structure CrossRow where
  market : String
  total_return : Option ℚ
  cagr : Option ℚ
  max_drawdown : Option (Option ℚ)
  sharpe_ratio : Option ℚ
  sortino_ratio : Option ℚ
  total_trades : Option ℕ
  error : Option String
deriving DecidableEq, Repr

/-- Loop of `cross_market_test`: one engine run per market, failures
isolated per market, callback after every market. -/
def crossLoop (ops : RealOps) (risk_free_rate : ℚ) (strategy : Strategy)
    (start_date end_date : Option ℕ) (frequency : Frequency) (base_investment : ℚ) :
    List (String × MarketData) → ℕ → ℕ → List CrossRow × List (ℕ × ℕ)
  | [], _, _ => ([], [])
  | m :: rest, i, total =>
    let row : CrossRow :=
      match run_backtest ops risk_free_rate strategy m.2 start_date end_date
        frequency base_investment m.1 with
      | .ok r =>
        { market := m.1,
          total_return := some r.metrics.total_return,
          cagr := some r.metrics.cagr,
          max_drawdown := some r.metrics.max_drawdown,
          sharpe_ratio := some r.metrics.sharpe_ratio,
          sortino_ratio := some r.metrics.sortino_ratio,
          total_trades := some r.metrics.total_trades, error := none }
      | .error e =>
        { market := m.1, total_return := none, cagr := none,
          max_drawdown := none, sharpe_ratio := none, sortino_ratio := none,
          total_trades := none, error := some e.message }
    let tailOut := crossLoop ops risk_free_rate strategy start_date end_date
      frequency base_investment rest (i + 1) total
    (row :: tailOut.1, (i + 1, total) :: tailOut.2)

/-- `RobustnessAnalyzer.cross_market_test`. -/
def cross_market_test (ops : RealOps) (risk_free_rate : ℚ) (strategy : Strategy)
    (markets : List (String × MarketData)) (start_date end_date : Option ℕ)
    (frequency : Frequency) (base_investment : ℚ) :
    List CrossRow × List (ℕ × ℕ) :=
  crossLoop ops risk_free_rate strategy start_date end_date frequency
    base_investment markets 0 markets.length

/-- The canonical progress trace of a batch of `total` units:
`(1, total), (2, total), …, (total, total)`. -/
def canonicalTrace (total : ℕ) : List (ℕ × ℕ) :=
  (List.range total).map fun i => (i + 1, total)

/-! ## Concrete objects used by witnesses and counterexamples -/

/-- A concrete instantiation of the abstract real operations (used only to
evaluate closed runs; no proved statement depends on its values). -/
def opsZero : RealOps := ⟨fun _ => 0, fun _ _ => 0, fun _ _ => 0⟩

/-- The all-zero ledger row, used as the virtual predecessor of the first
real transaction (the engine starts from zero shares and zero cost). -/
def initialTransaction : Transaction :=
  ⟨0, 0, 0, 0, 0, 0, 0, 0, 0, 0, 0⟩

/-- Relation between consecutive ledger rows asserting that the cost basis
grew by exactly the row's own buy investment — hence never decreased, and
independently of the row's sell fields. -/
def CostRel (a b : Transaction) : Prop :=
  b.total_cost = a.total_cost + b.investment ∧ a.total_cost ≤ b.total_cost

instance (a b : Transaction) : Decidable (CostRel a b) := by
  unfold CostRel; exact instDecidableAnd

/-- Relation between consecutive ledger rows asserting the share-count
accounting: the sell removes exactly `shares_sold` (at most the prior
holding), the buy adds a non-negative `shares_bought`, and the resulting
holding is non-negative. -/
def SharesRel (a b : Transaction) : Prop :=
  b.total_shares = a.total_shares - b.shares_sold + b.shares_bought ∧
  0 ≤ b.shares_bought ∧ 0 ≤ b.shares_sold ∧
  b.shares_sold ≤ a.total_shares ∧ 0 ≤ b.total_shares

instance (a b : Transaction) : Decidable (SharesRel a b) := by
  unfold SharesRel; exact instDecidableAnd

/-- A strategy that always invests a zero multiple (produces a ledger whose
cost basis is identically zero). -/
def zeroStrategy : Strategy :=
  ⟨"Zero", fun _ _ _ _ => .ok { investment_multiplier := 0, reason := "zero" }⟩

/-- A strategy whose decide call always raises. -/
def failingStrategy : Strategy :=
  ⟨"Always Fails", fun _ _ _ _ => .error "boom"⟩

/-- Two flat months of data, the smallest series a monthly run accepts. -/
def data2 : MarketData := ⟨["Close"], [(0, 100), (30, 100)]⟩

/-- A market data set with a Close column but no rows. -/
def emptyData : MarketData := ⟨["Close"], []⟩

/-- The spec's concrete dip scenario: 100 flat months at 100 followed by
one month at 85, spaced one model month (30 days) apart. -/
def concreteDipData : MarketData :=
  ⟨["Close"], (List.range 101).map fun i => (30 * i, if i = 100 then 85 else 100)⟩

/-- A one-row ledger whose value doubled its cost (a ledger shorter than
any the engine can produce). -/
def oneRowLedger : List Transaction :=
  [{ date := 0, price := 1, investment := 100, multiplier := 1, shares_bought := 100,
     shares_sold := 0, sell_proceeds := 0, total_shares := 100, total_cost := 100,
     current_value := 200, return_pct := 100 }]

/-- Extract the result of a successful run (junk on an error). -/
def resultOf (x : Except EngineError BacktestResult) : BacktestResult :=
  match x with
  | .ok r => r
  | .error _ => ⟨"", "", 0, 0, .M, 0, [], {}⟩

/-- A pure-strategy run on the two-month data set. -/
def pureRun : Except EngineError BacktestResult :=
  run_backtest opsZero (1 / 50) DCAPureStrategy data2 none none .M 1000 ""

/-! ## Loop invariants of the simulation -/

/-- A run that evaluates to a success equals `.ok` of its extracted
result. -/
theorem resultOf_spec (x : Except EngineError BacktestResult) (h : x.isOk = true) :
    x = .ok (resultOf x) := by
  cases x with
  | error e => exact Bool.noConfusion h
  | ok r => rfl

/-- The cost basis chain invariant of the simulation loop: under a
non-negative base amount and non-negative multipliers, every produced row
extends the running cost by its own non-negative investment. -/
theorem runPeriods_cost_chain (strategy : Strategy) (base : ℚ) (data : List (ℕ × ℚ))
    (hbase : 0 ≤ base)
    (hmult : ∀ p d h st dec, strategy.calculate_investment p d h st = .ok dec →
      0 ≤ dec.investment_multiplier) :
    ∀ (pts : List (ℕ × ℚ)) (s : EngineState) (ts : List Transaction) (a : Transaction),
      runPeriods strategy base data pts s = .ok ts → a.total_cost = s.total_cost →
      List.Chain' CostRel (a :: ts) := by
  intro pts
  induction pts with
  | nil =>
    intro s ts a h _
    simp only [runPeriods] at h
    cases h
    simp
  | cons hd rest ih =>
    intro s ts a h ha
    obtain ⟨d, price⟩ := hd
    simp only [runPeriods] at h
    split at h
    · exact absurd h (by simp)
    · rename_i decision heq
      split at h
      · exact absurd h (by simp)
      · rename_i ts2 heq2
        cases h
        rw [List.chain'_cons]
        refine ⟨⟨?_, ?_⟩, ?_⟩
        · rw [ha]; simp [engineStep]
        · rw [ha]
          have hinv : 0 ≤ base * decision.investment_multiplier :=
            mul_nonneg hbase (hmult _ _ _ _ _ heq)
          simp only [engineStep]
          linarith
        · exact ih _ _ _ heq2 (by simp [engineStep])

/-- A successful run's ledger is exactly the output of the simulation loop
over the run's investment points. -/
theorem run_backtest_ok_transactions (ops : RealOps) (rf : ℚ) (strategy : Strategy)
    (md : MarketData) (sd ed : Option ℕ) (freq : Frequency) (base : ℚ) (sym : String)
    (r : BacktestResult)
    (h : run_backtest ops rf strategy md sd ed freq base sym = .ok r) :
    runPeriods strategy base (restrictedData md sd ed)
      (investmentPoints md sd ed freq) ⟨0, 0⟩ = .ok r.transactions := by
  simp only [run_backtest] at h
  split at h
  · exact Except.noConfusion h
  · split at h
    · exact Except.noConfusion h
    · by_cases hdata : restrictedData md sd ed = []
      · rw [if_pos hdata] at h; exact Except.noConfusion h
      · rw [if_neg hdata] at h
        split at h
        · exact Except.noConfusion h
        · exact Except.noConfusion h
        · rename_i p1 p2 ps hpts
          split at h
          · exact Except.noConfusion h
          · rename_i ts hrp
            cases h
            rw [hpts]
            exact hrp

/-! ## Claim theorems -/

/-- C5: the Pure strategy's decide operation returns, for every combination
of price, date, historical data and portfolio state, a decision with
investment multiplier exactly 1.0 and sell percentage exactly 0.0. -/
theorem C5_pure_strategy_neutral :
    ∀ (current_price : ℚ) (current_date : ℕ) (historical_data : List (ℕ × ℚ))
      (portfolio_state : PortfolioState),
      DCAPureStrategy.calculate_investment current_price current_date historical_data
        portfolio_state =
        .ok { investment_multiplier := 1, sell_percentage := 0,
              reason := "Fixed periodic investment" } :=
  fun _ _ _ _ => rfl

/-- C1: in every engine run (with the spec's configuration constraints: a
non-negative base amount and non-negative decision multipliers), the
ledger's `total_cost` grows from each transaction to the next by exactly
that row's buy investment — hence it is non-decreasing, and sell actions
(which touch only the share fields) never decrease it. -/
theorem C1_monotonic_cost_basis (ops : RealOps) (rf : ℚ) (strategy : Strategy)
    (md : MarketData) (sd ed : Option ℕ) (freq : Frequency) (base : ℚ) (sym : String)
    (r : BacktestResult)
    (hbase : 0 ≤ base)
    (hmult : ∀ p d h st dec, strategy.calculate_investment p d h st = .ok dec →
      0 ≤ dec.investment_multiplier)
    (hrun : run_backtest ops rf strategy md sd ed freq base sym = .ok r) :
    List.Chain' CostRel (initialTransaction :: r.transactions) :=
  runPeriods_cost_chain strategy base (restrictedData md sd ed) hbase hmult
    (investmentPoints md sd ed freq) ⟨0, 0⟩ r.transactions initialTransaction
    (run_backtest_ok_transactions ops rf strategy md sd ed freq base sym r hrun) rfl

/-- Witness for C1: the pure-strategy run on the two-month data satisfies
the cost-basis chain. -/
theorem C1_witness : List.Chain' CostRel (initialTransaction :: (resultOf pureRun).transactions) :=
  C1_monotonic_cost_basis opsZero (1 / 50) DCAPureStrategy data2 none none .M 1000 ""
    (resultOf pureRun) (by norm_num)
    (fun p d h st dec hdec => by
      injection hdec with h2
      rw [← h2]
      norm_num)
    (resultOf_spec pureRun (by with_unfolding_all decide))

/-- Prices picked by the resampling appear in the input series. -/
theorem mem_resampleAux (w cur : ℕ) :
    ∀ (l : List (ℕ × ℚ)) (pt : ℕ × ℚ), pt ∈ resampleAux w cur l → ∃ d, (d, pt.2) ∈ l := by
  intro l
  induction l generalizing cur with
  | nil => intro pt h; simp [resampleAux] at h
  | cons hd rest ih =>
    intro pt h
    obtain ⟨d, p⟩ := hd
    simp only [resampleAux] at h
    split at h
    · obtain ⟨d2, hd2⟩ := ih _ pt h
      exact ⟨d2, List.mem_cons_of_mem _ hd2⟩
    · rcases List.mem_cons.mp h with h1 | h2
      · subst h1
        exact ⟨d, List.mem_cons_self _ _⟩
      · obtain ⟨d2, hd2⟩ := ih _ pt h2
        exact ⟨d2, List.mem_cons_of_mem _ hd2⟩

/-- Prices picked by the resampling appear in the input series. -/
theorem mem_resample (w : ℕ) (l : List (ℕ × ℚ)) (pt : ℕ × ℚ)
    (h : pt ∈ resample w l) : ∃ d, (d, pt.2) ∈ l := by
  cases l with
  | nil => simp [resample] at h
  | cons hd rest =>
    obtain ⟨d, p⟩ := hd
    simp only [resample] at h
    rcases List.mem_cons.mp h with h1 | h2
    · subst h1
      exact ⟨d, List.mem_cons_self _ _⟩
    · obtain ⟨d2, hd2⟩ := mem_resampleAux w _ rest pt h2
      exact ⟨d2, List.mem_cons_of_mem _ hd2⟩

/-- The date-range restriction only discards rows. -/
theorem mem_filterRange (sd ed : Option ℕ) (data : List (ℕ × ℚ)) (q : ℕ × ℚ)
    (h : q ∈ filterRange sd ed data) : q ∈ data := by
  unfold filterRange at h
  cases sd <;> cases ed <;> simp_all [List.mem_filter]

/-- Every investment point's price is a close price of the raw market
rows; in particular positivity of the raw closes carries over. -/
theorem investmentPoints_price_pos (md : MarketData) (sd ed : Option ℕ)
    (freq : Frequency) (hpos : ∀ q ∈ md.rows, 0 < q.2) :
    ∀ pt ∈ investmentPoints md sd ed freq, 0 < pt.2 := by
  intro pt hpt
  obtain ⟨d, hd⟩ := mem_resample _ _ pt hpt
  have hsorted : (d, pt.2) ∈ sortedData md := mem_filterRange sd ed _ _ hd
  have hrows : (d, pt.2) ∈ md.rows := (List.mem_insertionSort _).mp hsorted
  exact hpos (d, pt.2) hrows

/-- One engine step preserves the share-accounting relation. -/
theorem engineStep_sharesRel (base : ℚ) (d : ℕ) (price : ℚ)
    (decision : InvestmentDecision) (s : EngineState) (a : Transaction)
    (hbase : 0 ≤ base) (hmult : 0 ≤ decision.investment_multiplier)
    (hsell0 : 0 ≤ decision.sell_percentage) (hsell1 : decision.sell_percentage ≤ 1)
    (hprice : 0 < price) (ha : a.total_shares = s.total_shares)
    (hs : 0 ≤ s.total_shares) :
    SharesRel a (engineStep base d price decision s).2 := by
  have hbought : 0 ≤ base * decision.investment_multiplier / price :=
    div_nonneg (mul_nonneg hbase hmult) hprice.le
  simp only [engineStep, SharesRel]
  split_ifs with hcond
  · refine ⟨by rw [ha], hbought, mul_nonneg hcond.2.le hsell0, ?_, ?_⟩
    · rw [ha]
      exact mul_le_of_le_one_right hcond.2.le hsell1
    · have : s.total_shares * decision.sell_percentage ≤ s.total_shares :=
        mul_le_of_le_one_right hcond.2.le hsell1
      linarith
  · refine ⟨by rw [ha], hbought, le_refl 0, by rw [ha]; exact hs, by linarith⟩

/-- The share-accounting chain invariant of the simulation loop. -/
theorem runPeriods_shares_chain (strategy : Strategy) (base : ℚ) (data : List (ℕ × ℚ))
    (hbase : 0 ≤ base)
    (hdec : ∀ p d h st dec, strategy.calculate_investment p d h st = .ok dec →
      0 ≤ dec.investment_multiplier ∧ 0 ≤ dec.sell_percentage ∧ dec.sell_percentage ≤ 1) :
    ∀ (pts : List (ℕ × ℚ)), (∀ pt ∈ pts, 0 < pt.2) →
    ∀ (s : EngineState) (ts : List Transaction) (a : Transaction),
      runPeriods strategy base data pts s = .ok ts → a.total_shares = s.total_shares →
      0 ≤ s.total_shares → List.Chain' SharesRel (a :: ts) := by
  intro pts
  induction pts with
  | nil =>
    intro _ s ts a h _ _
    simp only [runPeriods] at h
    cases h
    simp
  | cons hd rest ih =>
    intro hpts s ts a h ha hs
    obtain ⟨d, price⟩ := hd
    have hprice : 0 < price := hpts (d, price) (List.mem_cons_self _ _)
    simp only [runPeriods] at h
    split at h
    · exact absurd h (by simp)
    · rename_i decision heq
      split at h
      · exact absurd h (by simp)
      · rename_i ts2 heq2
        cases h
        obtain ⟨hm, hs0, hs1⟩ := hdec _ _ _ _ _ heq
        have hrel := engineStep_sharesRel base d price decision s a hbase hm hs0 hs1
          hprice ha hs
        rw [List.chain'_cons]
        refine ⟨hrel, ?_⟩
        exact ih (fun pt hpt => hpts pt (List.mem_cons_of_mem _ hpt)) _ _ _ heq2 rfl
          (by
            have := hrel.2.2.2.2
            simpa [engineStep] using this)

/-- Every row of a share-accounting chain records a non-negative holding. -/
theorem chain_total_shares_nonneg :
    ∀ (ts : List Transaction) (a : Transaction),
      List.Chain' SharesRel (a :: ts) → ∀ t ∈ ts, 0 ≤ t.total_shares := by
  intro ts
  induction ts with
  | nil => intro a _ t ht; simp at ht
  | cons b l ih =>
    intro a h t ht
    rw [List.chain'_cons] at h
    rcases List.mem_cons.mp ht with h1 | h2
    · subst h1
      exact h.1.2.2.2.2
    · exact ih b h.2 t h2

/-- C10: in every engine run over positive prices with a non-negative base
amount and decisions whose multiplier is non-negative and whose sell
percentage lies in [0,1], every ledger row is linked to its predecessor
(starting from the zero holding) by exact sell/buy share accounting: the
sell removes exactly `shares_sold` (a non-negative quantity bounded by the
prior holding), the buy adds a non-negative `shares_bought`, and every
recorded `total_shares` is non-negative. -/
theorem C10_nonnegative_shares (ops : RealOps) (rf : ℚ) (strategy : Strategy)
    (md : MarketData) (sd ed : Option ℕ) (freq : Frequency) (base : ℚ) (sym : String)
    (r : BacktestResult)
    (hbase : 0 ≤ base)
    (hdec : ∀ p d h st dec, strategy.calculate_investment p d h st = .ok dec →
      0 ≤ dec.investment_multiplier ∧ 0 ≤ dec.sell_percentage ∧ dec.sell_percentage ≤ 1)
    (hpos : ∀ q ∈ md.rows, 0 < q.2)
    (hrun : run_backtest ops rf strategy md sd ed freq base sym = .ok r) :
    List.Chain' SharesRel (initialTransaction :: r.transactions) ∧
    ∀ t ∈ r.transactions, 0 ≤ t.total_shares := by
  have hchain : List.Chain' SharesRel (initialTransaction :: r.transactions) :=
    runPeriods_shares_chain strategy base (restrictedData md sd ed) hbase hdec
      (investmentPoints md sd ed freq)
      (investmentPoints_price_pos md sd ed freq hpos)
      ⟨0, 0⟩ r.transactions initialTransaction
      (run_backtest_ok_transactions ops rf strategy md sd ed freq base sym r hrun)
      rfl (le_refl 0)
  exact ⟨hchain, chain_total_shares_nonneg r.transactions initialTransaction hchain⟩

/-- Witness for C10 on the concrete pure-strategy run. -/
theorem C10_witness :
    List.Chain' SharesRel (initialTransaction :: (resultOf pureRun).transactions) ∧
    ∀ t ∈ (resultOf pureRun).transactions, 0 ≤ t.total_shares :=
  C10_nonnegative_shares opsZero (1 / 50) DCAPureStrategy data2 none none .M 1000 ""
    (resultOf pureRun) (by norm_num)
    (fun p d h st dec hdec => by
      injection hdec with h2
      rw [← h2]
      norm_num)
    (by with_unfolding_all decide)
    (resultOf_spec pureRun (by with_unfolding_all decide))

/-- Errors escaping the simulation loop are always strategy failures,
never input-validation errors. -/
theorem runPeriods_error_isStrategyFailure (strategy : Strategy) (base : ℚ)
    (data : List (ℕ × ℚ)) :
    ∀ (pts : List (ℕ × ℚ)) (s : EngineState) (e : EngineError),
      runPeriods strategy base data pts s = .error e → ∃ m, e = .strategyFailure m := by
  intro pts
  induction pts with
  | nil =>
    intro s e h
    simp only [runPeriods] at h
    exact absurd h (by simp)
  | cons hd rest ih =>
    intro s e h
    obtain ⟨d, price⟩ := hd
    simp only [runPeriods] at h
    split at h
    · rename_i msg heq
      cases h
      exact ⟨msg, rfl⟩
    · split at h
      · rename_i e2 heq2
        cases h
        exact ih _ _ heq2
      · exact absurd h (by simp)

/-- A total strategy never aborts the simulation loop. -/
theorem runPeriods_total (strategy : Strategy) (base : ℚ) (data : List (ℕ × ℚ))
    (htot : ∀ p d h st, ∃ dec, strategy.calculate_investment p d h st = .ok dec) :
    ∀ (pts : List (ℕ × ℚ)) (s : EngineState),
      ∃ ts, runPeriods strategy base data pts s = .ok ts := by
  intro pts
  induction pts with
  | nil => exact fun s => ⟨[], rfl⟩
  | cons hd rest ih =>
    intro s
    obtain ⟨d, price⟩ := hd
    obtain ⟨dec, hdec⟩ := htot price d (data.filter fun q => q.1 ≤ d)
      ⟨s.total_shares, s.total_cost, s.total_shares * price,
       if s.total_cost > 0 then
         (s.total_shares * price - s.total_cost) / s.total_cost * 100
       else 0⟩
    obtain ⟨ts, hts⟩ := ih (engineStep base d price dec s).1
    refine ⟨(engineStep base d price dec s).2 :: ts, ?_⟩
    simp only [runPeriods, hdec, hts]

/-- C4: a single engine run fails with `InvalidInputError` exactly when
the price series is empty, the Close field is missing, the date-restricted
series is empty, or fewer than two resampled investment dates remain; and
on any input (with positive close prices, per the PriceSeries invariant)
meeting none of those conditions, a non-raising strategy makes the run
return a `BacktestResult` without raising. -/
theorem C4_run_raises_iff (ops : RealOps) (rf : ℚ) (strategy : Strategy)
    (md : MarketData) (sd ed : Option ℕ) (freq : Frequency) (base : ℚ) (sym : String) :
    ((∃ msg, run_backtest ops rf strategy md sd ed freq base sym =
        .error (.invalidInput msg)) ↔
      (md.rows = [] ∨ "Close" ∉ md.columns ∨ restrictedData md sd ed = [] ∨
        (investmentPoints md sd ed freq).length < 2))
    ∧ ((∀ q ∈ md.rows, 0 < q.2) →
       (∀ p d h st, ∃ dec, strategy.calculate_investment p d h st = .ok dec) →
       ¬(md.rows = [] ∨ "Close" ∉ md.columns ∨ restrictedData md sd ed = [] ∨
          (investmentPoints md sd ed freq).length < 2) →
       ∃ r, run_backtest ops rf strategy md sd ed freq base sym = .ok r) := by
  constructor
  · constructor
    · rintro ⟨msg, h⟩
      by_contra hno
      push_neg at hno
      obtain ⟨h1, h2, h3, h4⟩ := hno
      simp only [run_backtest] at h
      rw [if_neg h1, if_neg (by simpa using h2), if_neg h3] at h
      split at h
      · rename_i heq
        rw [heq] at h4
        simp at h4
      · rename_i x heq
        rw [heq] at h4
        simp at h4
      · rename_i p1 p2 ps heq
        split at h
        · rename_i e heq2
          obtain ⟨m, hm⟩ := runPeriods_error_isStrategyFailure strategy base _ _ _ _ heq2
          subst hm
          injection h with h5
          exact EngineError.noConfusion h5
        · exact absurd h (by simp)
    · intro hdisj
      by_cases h1 : md.rows = []
      · exact ⟨"Market data is empty", by simp only [run_backtest]; rw [if_pos h1]⟩
      · by_cases h2 : "Close" ∉ md.columns
        · exact ⟨"Market data must have 'Close' column", by
            simp only [run_backtest]; rw [if_neg h1, if_pos h2]⟩
        · by_cases h3 : restrictedData md sd ed = []
          · exact ⟨"No data in specified date range", by
              simp only [run_backtest]; rw [if_neg h1, if_neg h2, if_pos h3]⟩
          · have h4 : (investmentPoints md sd ed freq).length < 2 := by
              rcases hdisj with hd | hd | hd | hd
              · exact absurd hd h1
              · exact absurd hd h2
              · exact absurd hd h3
              · exact hd
            refine ⟨"Insufficient data points for backtest", ?_⟩
            simp only [run_backtest]
            rw [if_neg h1, if_neg h2, if_neg h3]
            split
            · rfl
            · rfl
            · rename_i p1 p2 ps heq
              rw [heq] at h4
              simp at h4
              omega
  · intro hpos htot hnone
    push_neg at hnone
    obtain ⟨h1, h2, h3, h4⟩ := hnone
    simp only [run_backtest]
    rw [if_neg h1, if_neg (by simpa using h2), if_neg h3]
    split
    · rename_i heq
      rw [heq] at h4
      simp at h4
    · rename_i x heq
      rw [heq] at h4
      simp at h4
    · rename_i p1 p2 ps heq
      obtain ⟨ts, hts⟩ := runPeriods_total strategy base (restrictedData md sd ed) htot
        (p1 :: p2 :: ps) ⟨0, 0⟩
      exact ⟨_, by rw [hts]⟩

/-- Witness for C4 on the two-month data set with the pure strategy: the
raises-iff equivalence holds and the run succeeds. -/
theorem C4_witness :
    ((∃ msg, run_backtest opsZero (1 / 50) DCAPureStrategy data2 none none .M 1000 "" =
        .error (.invalidInput msg)) ↔
      (data2.rows = [] ∨ "Close" ∉ data2.columns ∨ restrictedData data2 none none = [] ∨
        (investmentPoints data2 none none .M).length < 2))
    ∧ ∃ r, run_backtest opsZero (1 / 50) DCAPureStrategy data2 none none .M 1000 "" = .ok r :=
  ⟨(C4_run_raises_iff opsZero (1 / 50) DCAPureStrategy data2 none none .M 1000 "").1,
   (C4_run_raises_iff opsZero (1 / 50) DCAPureStrategy data2 none none .M 1000 "").2
     (by with_unfolding_all decide)
     (fun p d h st => ⟨_, rfl⟩)
     (by with_unfolding_all decide)⟩

/-- C2: with the default two-tier thresholds, a price exactly 15% below a
positive trailing high selects the tier-1 multiplier 1.5 (not tier-2's 2.0
and not the neutral 1.0); and on the concrete series of 100 flat $100
months followed by one $85 month, run monthly at a $1000 base, the final
transaction records multiplier 1.5, investment $1500 and shares bought
1500/85. -/
theorem C2_dip_tier_and_scenario :
    (∀ (current_date : ℕ) (historical_data : List (ℕ × ℚ)) (st : PortfolioState) (H : ℚ),
      2 ≤ (dipRelevant historical_data current_date).length →
      dipRecentHigh 252 historical_data current_date = H →
      0 < H →
      ((DCADipBuyingStrategy {}).calculate_investment (17 / 20 * H) current_date
          historical_data st).map
        (fun dec => (dec.investment_multiplier, dec.sell_percentage)) = .ok (3 / 2, 0))
    ∧ (run_backtest opsZero (1 / 50) (DCADipBuyingStrategy {}) concreteDipData none none .M
        1000 "").map
        (fun r => r.transactions.getLast?.map fun t =>
          (t.multiplier, t.investment, t.shares_bought)) =
        .ok (some (3 / 2, 1500, 300 / 17)) := by
  constructor
  · intro d hist st H hlen hH hpos
    simp only [DCADipBuyingStrategy]
    rw [if_neg (by omega)]
    rw [hH, if_neg (by linarith)]
    have hdd : (H - 17 / 20 * H) / H = 3 / 20 := by
      field_simp
      ring
    rw [hdd]
    rw [if_neg (by norm_num), if_pos (by norm_num)]
    rfl
  · with_unfolding_all decide

/-- Witness for C2's general tier statement at a concrete two-point
history with trailing high 100 and price 85. -/
theorem C2_witness :
    ((DCADipBuyingStrategy {}).calculate_investment (17 / 20 * 100) 30
        [(0, 100), (30, 85)] ⟨0, 0, 0, 0⟩).map
      (fun dec => (dec.investment_multiplier, dec.sell_percentage)) = .ok (3 / 2, 0) :=
  C2_dip_tier_and_scenario.1 30 [(0, 100), (30, 85)] ⟨0, 0, 0, 0⟩ 100
    (by with_unfolding_all decide) (by with_unfolding_all decide) (by norm_num)

/-- A successful run's metrics are the metrics of its own ledger. -/
theorem run_backtest_ok_metrics (ops : RealOps) (rf : ℚ) (strategy : Strategy)
    (md : MarketData) (sd ed : Option ℕ) (freq : Frequency) (base : ℚ) (sym : String)
    (r : BacktestResult)
    (h : run_backtest ops rf strategy md sd ed freq base sym = .ok r) :
    r.metrics = calculate_all_metrics ops rf r.transactions := by
  simp only [run_backtest] at h
  split at h
  · exact Except.noConfusion h
  · split at h
    · exact Except.noConfusion h
    · by_cases hdata : restrictedData md sd ed = []
      · rw [if_pos hdata] at h; exact Except.noConfusion h
      · rw [if_neg hdata] at h
        split at h
        · exact Except.noConfusion h
        · exact Except.noConfusion h
        · split at h
          · exact Except.noConfusion h
          · cases h
            rfl

/-- If the loop starts from the zero state and every produced row has a
zero cost basis, then every row also holds zero shares and zero value. -/
theorem runPeriods_zero_cost (strategy : Strategy) (base : ℚ) (data : List (ℕ × ℚ)) :
    ∀ (pts : List (ℕ × ℚ)) (s : EngineState) (ts : List Transaction),
      s.total_shares = 0 → s.total_cost = 0 →
      runPeriods strategy base data pts s = .ok ts →
      (∀ t ∈ ts, t.total_cost = 0) →
      ∀ t ∈ ts, t.total_shares = 0 ∧ t.current_value = 0 := by
  intro pts
  induction pts with
  | nil =>
    intro s ts hsh hsc h hall t ht
    simp only [runPeriods] at h
    cases h
    simp at ht
  | cons hd rest ih =>
    intro s ts hsh hsc h hall t ht
    obtain ⟨d, price⟩ := hd
    simp only [runPeriods] at h
    split at h
    · exact absurd h (by simp)
    · rename_i decision heq
      split at h
      · exact absurd h (by simp)
      · rename_i ts2 heq2
        cases h
        have hinv : base * decision.investment_multiplier = 0 := by
          have hc0 := hall _ (List.mem_cons_self _ _)
          simp [engineStep, hsc] at hc0
          exact mul_eq_zero.mpr hc0
        have hstep_shares : (engineStep base d price decision s).2.total_shares = 0 := by
          simp [engineStep, hsh, hinv]
        have hstep_value : (engineStep base d price decision s).2.current_value = 0 := by
          simp [engineStep, hsh, hinv]
        rcases List.mem_cons.mp ht with h1 | h2
        · subst h1
          exact ⟨hstep_shares, hstep_value⟩
        · have hstate_shares : (engineStep base d price decision s).1.total_shares = 0 := by
            simp [engineStep, hsh, hinv]
          have hstate_cost : (engineStep base d price decision s).1.total_cost = 0 := by
            simp [engineStep, hsc, hinv]
          exact ih _ _ hstate_shares hstate_cost heq2
            (fun t2 ht2 => hall t2 (List.mem_cons_of_mem _ ht2)) t h2

/-- The period-return series of an all-zero value series is empty (every
entry is a dropped NaN). -/
theorem periodReturns_all_zero :
    ∀ (values : List ℚ), (∀ v ∈ values, v = 0) → periodReturns values = [] := by
  intro values
  induction values with
  | nil => intro _; rfl
  | cons v rest ih =>
    intro h
    cases rest with
    | nil => rfl
    | cons w rest2 =>
      have hv : v = 0 := h v (by simp)
      have hstep : periodReturns (v :: w :: rest2) = periodReturns (w :: rest2) := by
        subst hv
        simp [periodReturns]
      rw [hstep]
      exact ih fun x hx => h x (List.mem_cons_of_mem _ hx)

/-- On a ledger whose rows all have zero cost and zero value, the metrics
guarded by total-cost or return-count checks fall back to zero. -/
theorem calculate_all_metrics_zero_cost (ops : RealOps) (rf : ℚ) (ts : List Transaction)
    (hcost : ∀ t ∈ ts, t.total_cost = 0) (hval : ∀ t ∈ ts, t.current_value = 0) :
    (calculate_all_metrics ops rf ts).total_return = 0 ∧
    (calculate_all_metrics ops rf ts).cagr = 0 ∧
    (calculate_all_metrics ops rf ts).sharpe_ratio = 0 ∧
    (calculate_all_metrics ops rf ts).sortino_ratio = 0 ∧
    (calculate_all_metrics ops rf ts).calmar_ratio = some 0 := by
  cases ts with
  | nil => refine ⟨rfl, rfl, rfl, rfl, rfl⟩
  | cons t0 rest =>
    have hlast : ((t0 :: rest).getLast (List.cons_ne_nil t0 rest)).total_cost = 0 :=
      hcost _ (List.getLast_mem _)
    have hreturns : periodReturns ((t0 :: rest).map fun t => t.current_value) = [] :=
      periodReturns_all_zero _ (fun v hv => by
        obtain ⟨t, ht, rfl⟩ := List.mem_map.mp hv
        exact hval t ht)
    simp only [calculate_all_metrics, hreturns]
    refine ⟨?_, ?_, ?_, ?_, ?_⟩
    · simp [calculate_total_return, hlast]
    · simp [calculate_cagr, hlast]
    · simp
    · simp
    · simp

/-- C3 counterexample: a two-month zero-multiplier run produces a ledger
with `total_cost = 0` in every row, on which the metrics calculator
records `max_drawdown = NaN` (modelled `none`) — so "never produces NaN"
fails; and on a one-row (too short) ledger the total return is 100, not
its zero default. -/
theorem C3_counterexample :
    ((run_backtest opsZero (1 / 50) zeroStrategy data2 none none .M 1000 "").map
        (fun r => (r.transactions.map fun t => t.total_cost, r.metrics.max_drawdown)) =
      .ok ([0, 0], none))
    ∧ (calculate_all_metrics opsZero (1 / 50) oneRowLedger).total_return = 100 :=
  ⟨by with_unfolding_all decide, by with_unfolding_all decide⟩

/-- C3 (amended): on every engine ledger whose `total_cost` is 0 in every
row, the metrics calculator returns total return 0, CAGR 0, Sharpe 0,
Sortino 0 and Calmar 0 without raising, and none of those five is NaN
(`max_drawdown`, by contrast, is NaN there); the empty ledger yields the
all-zero default record; and a ledger too short to have two valid period
returns yields the zero defaults for the volatility, downside-volatility,
VaR, Sharpe, Sortino and Calmar metrics. -/
theorem C3_metrics_zero_division (ops : RealOps) (rf : ℚ) :
    (∀ (strategy : Strategy) (md : MarketData) (sd ed : Option ℕ) (freq : Frequency)
       (base : ℚ) (sym : String) (r : BacktestResult),
      run_backtest ops rf strategy md sd ed freq base sym = .ok r →
      (∀ t ∈ r.transactions, t.total_cost = 0) →
      (r.metrics.total_return = 0 ∧ r.metrics.cagr = 0 ∧ r.metrics.sharpe_ratio = 0 ∧
       r.metrics.sortino_ratio = 0 ∧ r.metrics.calmar_ratio = some 0))
    ∧ calculate_all_metrics ops rf [] = ({} : PerformanceMetrics)
    ∧ (∀ (ts : List Transaction),
        (periodReturns (ts.map fun t => t.current_value)).length ≤ 1 →
        ((calculate_all_metrics ops rf ts).volatility = 0 ∧
         (calculate_all_metrics ops rf ts).downside_volatility = 0 ∧
         (calculate_all_metrics ops rf ts).var_99 = 0 ∧
         (calculate_all_metrics ops rf ts).sharpe_ratio = 0 ∧
         (calculate_all_metrics ops rf ts).sortino_ratio = 0 ∧
         (calculate_all_metrics ops rf ts).calmar_ratio = some 0)) := by
  refine ⟨?_, rfl, ?_⟩
  · intro strategy md sd ed freq base sym r hrun hcost
    have hperiods := run_backtest_ok_transactions ops rf strategy md sd ed freq base sym r hrun
    have hval := runPeriods_zero_cost strategy base (restrictedData md sd ed)
      (investmentPoints md sd ed freq) ⟨0, 0⟩ r.transactions rfl rfl hperiods hcost
    have hmet := run_backtest_ok_metrics ops rf strategy md sd ed freq base sym r hrun
    rw [hmet]
    exact calculate_all_metrics_zero_cost ops rf r.transactions hcost
      (fun t ht => (hval t ht).2)
  · intro ts hshort
    cases ts with
    | nil => refine ⟨rfl, rfl, rfl, rfl, rfl, rfl⟩
    | cons t0 rest =>
      have hnot : ¬ 1 < (periodReturns ((t0 :: rest).map fun t => t.current_value)).length := by
        omega
      simp only [calculate_all_metrics]
      rw [if_neg hnot, if_neg hnot, if_neg hnot, if_neg hnot, if_neg hnot, if_neg hnot]
      exact ⟨rfl, rfl, rfl, rfl, rfl, rfl⟩

/-- Witness for the amended C3 at the concrete zero-multiplier run, the
empty ledger, and the one-row ledger. -/
theorem C3_witness :
    ((resultOf (run_backtest opsZero (1 / 50) zeroStrategy data2 none none .M
        1000 "")).metrics.total_return = 0 ∧
      (resultOf (run_backtest opsZero (1 / 50) zeroStrategy data2 none none .M
        1000 "")).metrics.cagr = 0 ∧
      (resultOf (run_backtest opsZero (1 / 50) zeroStrategy data2 none none .M
        1000 "")).metrics.sharpe_ratio = 0 ∧
      (resultOf (run_backtest opsZero (1 / 50) zeroStrategy data2 none none .M
        1000 "")).metrics.sortino_ratio = 0 ∧
      (resultOf (run_backtest opsZero (1 / 50) zeroStrategy data2 none none .M
        1000 "")).metrics.calmar_ratio = some 0)
    ∧ calculate_all_metrics opsZero (1 / 50) [] = ({} : PerformanceMetrics)
    ∧ ((calculate_all_metrics opsZero (1 / 50) oneRowLedger).volatility = 0 ∧
       (calculate_all_metrics opsZero (1 / 50) oneRowLedger).downside_volatility = 0 ∧
       (calculate_all_metrics opsZero (1 / 50) oneRowLedger).var_99 = 0 ∧
       (calculate_all_metrics opsZero (1 / 50) oneRowLedger).sharpe_ratio = 0 ∧
       (calculate_all_metrics opsZero (1 / 50) oneRowLedger).sortino_ratio = 0 ∧
       (calculate_all_metrics opsZero (1 / 50) oneRowLedger).calmar_ratio = some 0) :=
  ⟨(C3_metrics_zero_division opsZero (1 / 50)).1 zeroStrategy data2 none none .M 1000 ""
      (resultOf (run_backtest opsZero (1 / 50) zeroStrategy data2 none none .M 1000 ""))
      (resultOf_spec _ (by with_unfolding_all decide)) (by with_unfolding_all decide),
   (C3_metrics_zero_division opsZero (1 / 50)).2.1,
   (C3_metrics_zero_division opsZero (1 / 50)).2.2 oneRowLedger
      (by with_unfolding_all decide)⟩

/-- C6: every history-consuming strategy variant returns the neutral
decision (multiplier 1, sell 0) instead of failing when its history is
shorter than its minimum depth (dip: 2 points; volatility:
`max(window, lookback) + 1`; trend: `ma_period`); a non-positive trailing
high (dip) or a zero average volatility (volatility) likewise yields a
neutral decision with a diagnostic reason; and the three variants' decide
operations never raise.  (Pure and Profit-taking consult no history, so
their minimum depth is zero and the condition is vacuous.) -/
theorem C6_insufficient_history_neutral (ops : RealOps) :
    (∀ (p : DipParams) (price : ℚ) (d : ℕ) (hist : List (ℕ × ℚ)) (st : PortfolioState),
      (dipRelevant hist d).length < 2 →
      (DCADipBuyingStrategy p).calculate_investment price d hist st =
        .ok { investment_multiplier := 1, sell_percentage := 0,
              reason := "Insufficient historical data" })
    ∧ (∀ (p : DipParams) (price : ℚ) (d : ℕ) (hist : List (ℕ × ℚ)) (st : PortfolioState),
      ¬ (dipRelevant hist d).length < 2 →
      dipRecentHigh p.lookback_period hist d ≤ 0 →
      (DCADipBuyingStrategy p).calculate_investment price d hist st =
        .ok { investment_multiplier := 1, sell_percentage := 0,
              reason := "Invalid price data" })
    ∧ (∀ (p : VolParams) (price : ℚ) (d : ℕ) (hist : List (ℕ × ℚ)) (st : PortfolioState),
      ((hist.filter fun q => q.1 ≤ d).map Prod.snd).length < volMinRequired p →
      (DCAVolatilityStrategy p ops).calculate_investment price d hist st =
        .ok { investment_multiplier := 1, sell_percentage := 0,
              reason := "數據不足，正常投入" })
    ∧ (∀ (p : VolParams) (price : ℚ) (d : ℕ) (hist : List (ℕ × ℚ)) (st : PortfolioState),
      ¬ ((hist.filter fun q => q.1 ≤ d).map Prod.snd).length < volMinRequired p →
      volAvgVol ops p ((hist.filter fun q => q.1 ≤ d).map Prod.snd) = some 0 →
      (DCAVolatilityStrategy p ops).calculate_investment price d hist st =
        .ok { investment_multiplier := 1, sell_percentage := 0,
              reason := "波動率計算失敗，正常投入" })
    ∧ (∀ (p : TrendParams) (price : ℚ) (d : ℕ) (hist : List (ℕ × ℚ)) (st : PortfolioState),
      ((hist.filter fun q => q.1 ≤ d).map Prod.snd).length < p.ma_period →
      (DCATrendFilterStrategy p).calculate_investment price d hist st =
        .ok { investment_multiplier := 1, sell_percentage := 0,
              reason := "數據不足，正常投入" })
    ∧ (∀ (p : DipParams) (price : ℚ) (d : ℕ) (hist : List (ℕ × ℚ)) (st : PortfolioState),
      ∃ dec, (DCADipBuyingStrategy p).calculate_investment price d hist st = .ok dec)
    ∧ (∀ (p : VolParams) (price : ℚ) (d : ℕ) (hist : List (ℕ × ℚ)) (st : PortfolioState),
      ∃ dec, (DCAVolatilityStrategy p ops).calculate_investment price d hist st = .ok dec)
    ∧ (∀ (p : TrendParams) (price : ℚ) (d : ℕ) (hist : List (ℕ × ℚ)) (st : PortfolioState),
      ∃ dec, (DCATrendFilterStrategy p).calculate_investment price d hist st = .ok dec) := by
  refine ⟨?_, ?_, ?_, ?_, ?_, ?_, ?_, ?_⟩
  · intro p price d hist st h
    simp only [DCADipBuyingStrategy]
    rw [if_pos h]
  · intro p price d hist st h1 h2
    simp only [DCADipBuyingStrategy]
    rw [if_neg h1, if_pos h2]
  · intro p price d hist st h
    simp only [DCAVolatilityStrategy]
    rw [if_pos h]
  · intro p price d hist st h1 h2
    simp only [DCAVolatilityStrategy]
    rw [if_neg h1, h2]
    rcases hcv : volCurrentVol ops p ((hist.filter fun q => q.1 ≤ d).map Prod.snd)
      with _ | cv <;> simp [hcv]
  · intro p price d hist st h
    simp only [DCATrendFilterStrategy]
    rw [if_pos h]
  · intro p price d hist st
    simp only [DCADipBuyingStrategy]
    repeat' first | exact ⟨_, rfl⟩ | split
  · intro p price d hist st
    simp only [DCAVolatilityStrategy]
    repeat' first | exact ⟨_, rfl⟩ | split
  · intro p price d hist st
    simp only [DCATrendFilterStrategy]
    repeat' first | exact ⟨_, rfl⟩ | split

/-- Witness for C6: concrete instances of each guarded branch. -/
theorem C6_witness :
    ((DCADipBuyingStrategy {}).calculate_investment 100 0 [] ⟨0, 0, 0, 0⟩ =
      .ok { investment_multiplier := 1, sell_percentage := 0,
            reason := "Insufficient historical data" })
    ∧ ((DCADipBuyingStrategy {}).calculate_investment 100 0 [(0, 0), (0, 0)] ⟨0, 0, 0, 0⟩ =
      .ok { investment_multiplier := 1, sell_percentage := 0,
            reason := "Invalid price data" })
    ∧ ((DCAVolatilityStrategy {} opsZero).calculate_investment 100 0 [] ⟨0, 0, 0, 0⟩ =
      .ok { investment_multiplier := 1, sell_percentage := 0,
            reason := "數據不足，正常投入" })
    ∧ ((DCAVolatilityStrategy ⟨2, 3, 3 / 2, 4 / 5, 3 / 2, 4 / 5⟩ opsZero).calculate_investment
        100 4 [(0, 100), (1, 100), (2, 100), (3, 100), (4, 100)] ⟨0, 0, 0, 0⟩ =
      .ok { investment_multiplier := 1, sell_percentage := 0,
            reason := "波動率計算失敗，正常投入" })
    ∧ ((DCATrendFilterStrategy {}).calculate_investment 100 0 [] ⟨0, 0, 0, 0⟩ =
      .ok { investment_multiplier := 1, sell_percentage := 0,
            reason := "數據不足，正常投入" }) :=
  ⟨(C6_insufficient_history_neutral opsZero).1 {} 100 0 [] ⟨0, 0, 0, 0⟩
      (by with_unfolding_all decide),
   (C6_insufficient_history_neutral opsZero).2.1 {} 100 0 [(0, 0), (0, 0)] ⟨0, 0, 0, 0⟩
      (by with_unfolding_all decide) (by with_unfolding_all decide),
   (C6_insufficient_history_neutral opsZero).2.2.1 {} 100 0 [] ⟨0, 0, 0, 0⟩
      (by with_unfolding_all decide),
   (C6_insufficient_history_neutral opsZero).2.2.2.1 ⟨2, 3, 3 / 2, 4 / 5, 3 / 2, 4 / 5⟩
      100 4 [(0, 100), (1, 100), (2, 100), (3, 100), (4, 100)] ⟨0, 0, 0, 0⟩
      (by with_unfolding_all decide) (by with_unfolding_all decide),
   (C6_insufficient_history_neutral opsZero).2.2.2.2.1 {} 100 0 [] ⟨0, 0, 0, 0⟩
      (by with_unfolding_all decide)⟩

/-- C7: in a batch of three strategies of which exactly the middle one
fails, `run_batch_backtest` returns exactly the two successful results (in
strategy order), surfaces the failing strategy's name in the printed error
line, and does not raise. -/
theorem C7_batch_partial_failure (ops : RealOps) (rf : ℚ) (s1 s2 s3 : Strategy)
    (md : MarketData) (sd ed : Option ℕ) (freq : Frequency) (base : ℚ) (sym : String)
    (r1 r3 : BacktestResult) (e : EngineError)
    (h1 : run_backtest ops rf s1 md sd ed freq base sym = .ok r1)
    (h2 : run_backtest ops rf s2 md sd ed freq base sym = .error e)
    (h3 : run_backtest ops rf s3 md sd ed freq base sym = .ok r3) :
    run_batch_backtest ops rf [s1, s2, s3] md sd ed freq base sym =
      ([r1, r3], ["Error running " ++ s2.name ++ ": " ++ e.message]) := by
  simp only [run_batch_backtest, h1, h2, h3]

/-- Witness for C7: pure, always-failing and zero-multiplier strategies on
the two-month data. -/
theorem C7_witness :
    ∃ (r1 r3 : BacktestResult) (e : EngineError),
      run_backtest opsZero (1 / 50) DCAPureStrategy data2 none none .M 1000 "" = .ok r1 ∧
      run_backtest opsZero (1 / 50) failingStrategy data2 none none .M 1000 "" = .error e ∧
      run_backtest opsZero (1 / 50) zeroStrategy data2 none none .M 1000 "" = .ok r3 ∧
      run_batch_backtest opsZero (1 / 50) [DCAPureStrategy, failingStrategy, zeroStrategy]
        data2 none none .M 1000 "" =
        ([r1, r3], ["Error running " ++ failingStrategy.name ++ ": " ++ e.message]) := by
  refine ⟨resultOf pureRun,
    resultOf (run_backtest opsZero (1 / 50) zeroStrategy data2 none none .M 1000 ""),
    .strategyFailure "boom", ?_, ?_, ?_, ?_⟩
  · exact resultOf_spec pureRun (by with_unfolding_all decide)
  · with_unfolding_all decide
  · exact resultOf_spec _ (by with_unfolding_all decide)
  · exact C7_batch_partial_failure opsZero (1 / 50) DCAPureStrategy failingStrategy
      zeroStrategy data2 none none .M 1000 "" _ _ _
      (resultOf_spec pureRun (by with_unfolding_all decide))
      (by with_unfolding_all decide)
      (resultOf_spec _ (by with_unfolding_all decide))

/-- When every simulation fails, the collection loop collects nothing. -/
theorem monteCarloLoop_all_fail (ops : RealOps) (rf : ℚ) (strategy : Strategy)
    (md : MarketData) (freq : Frequency) (base : ℚ) :
    ∀ (sims : List SimWindow),
      (∀ sim ∈ sims, run_single_simulation ops rf strategy md freq base sim = none) →
      ∀ (c t : ℕ), (monteCarloLoop ops rf strategy md freq base sims c t).1 = [] := by
  intro sims
  induction sims with
  | nil => intro _ c t; rfl
  | cons sim rest ih =>
    intro h c t
    have hsim := h sim (List.mem_cons_self _ _)
    simp only [monteCarloLoop, hsim]
    exact ih (fun x hx => h x (List.mem_cons_of_mem _ hx)) (c + 1) t

/-- C8: if every randomly drawn Monte Carlo simulation fails, the harness
returns the dedicated no-successful-simulations result instead of
aggregating an empty result set. -/
theorem C8_monte_carlo_empty (ops : RealOps) (rf : ℚ) (strategy : Strategy)
    (md : MarketData) (freq : Frequency) (base : ℚ) (num_workers : ℕ)
    (sims : List SimWindow)
    (hfail : ∀ sim ∈ sims, run_single_simulation ops rf strategy md freq base sim = none) :
    (monte_carlo_simulation ops rf strategy md freq base num_workers sims).1 =
      .error "No successful simulations" := by
  have hres := monteCarloLoop_all_fail ops rf strategy md freq base sims hfail 0 sims.length
  simp only [monte_carlo_simulation]
  rw [if_pos hres]

/-- Witness for C8: a single simulation over an empty market data set
fails, so the aggregate is the no-data result. -/
theorem C8_witness :
    (monte_carlo_simulation opsZero (1 / 50) DCAPureStrategy emptyData .M 1000 4
        [⟨0, 100⟩]).1 = .error "No successful simulations" :=
  C8_monte_carlo_empty opsZero (1 / 50) DCAPureStrategy emptyData .M 1000 4 [⟨0, 100⟩]
    (by with_unfolding_all decide)

/-- The fixed-start-points loop's trace is the shifted canonical one. -/
theorem fixedLoop_trace (ops : RealOps) (rf : ℚ) (strategy : Strategy) (md : MarketData)
    (ed : ℕ) (freq : Frequency) (base : ℚ) :
    ∀ (dates : List ℕ) (i total : ℕ),
      (fixedLoop ops rf strategy md ed freq base dates i total).2 =
        (List.range dates.length).map fun k => (i + k + 1, total) := by
  intro dates
  induction dates with
  | nil => intro i total; rfl
  | cons sd rest ih =>
    intro i total
    simp only [fixedLoop, ih, List.length_cons, List.range_succ_eq_map, List.map_cons,
      List.map_map, List.cons.injEq]
    refine ⟨by simp, ?_⟩
    apply List.map_congr_left
    intro k _
    simp only [Function.comp_apply, Prod.mk.injEq]
    exact ⟨by omega, trivial⟩

/-- The Monte Carlo collection loop's trace is the shifted canonical one. -/
theorem monteCarloLoop_trace (ops : RealOps) (rf : ℚ) (strategy : Strategy)
    (md : MarketData) (freq : Frequency) (base : ℚ) :
    ∀ (sims : List SimWindow) (i total : ℕ),
      (monteCarloLoop ops rf strategy md freq base sims i total).2 =
        (List.range sims.length).map fun k => (i + k + 1, total) := by
  intro sims
  induction sims with
  | nil => intro i total; rfl
  | cons sim rest ih =>
    intro i total
    simp only [monteCarloLoop, ih, List.length_cons, List.range_succ_eq_map, List.map_cons,
      List.map_map, List.cons.injEq]
    refine ⟨by simp, ?_⟩
    apply List.map_congr_left
    intro k _
    simp only [Function.comp_apply, Prod.mk.injEq]
    exact ⟨by omega, trivial⟩

/-- The rolling-window loop's trace is the shifted canonical one. -/
theorem rollingLoop_trace (ops : RealOps) (rf : ℚ) (strategy : Strategy) (md : MarketData)
    (freq : Frequency) (base : ℚ) :
    ∀ (windows : List (ℕ × ℕ)) (i total : ℕ),
      (rollingLoop ops rf strategy md freq base windows i total).2 =
        (List.range windows.length).map fun k => (i + k + 1, total) := by
  intro windows
  induction windows with
  | nil => intro i total; rfl
  | cons w rest ih =>
    intro i total
    simp only [rollingLoop, ih, List.length_cons, List.range_succ_eq_map, List.map_cons,
      List.map_map, List.cons.injEq]
    refine ⟨by simp, ?_⟩
    apply List.map_congr_left
    intro k _
    simp only [Function.comp_apply, Prod.mk.injEq]
    exact ⟨by omega, trivial⟩

/-- The cross-market loop's trace is the shifted canonical one. -/
theorem crossLoop_trace (ops : RealOps) (rf : ℚ) (strategy : Strategy)
    (sd ed : Option ℕ) (freq : Frequency) (base : ℚ) :
    ∀ (markets : List (String × MarketData)) (i total : ℕ),
      (crossLoop ops rf strategy sd ed freq base markets i total).2 =
        (List.range markets.length).map fun k => (i + k + 1, total) := by
  intro markets
  induction markets with
  | nil => intro i total; rfl
  | cons m rest ih =>
    intro i total
    simp only [crossLoop, ih, List.length_cons, List.range_succ_eq_map, List.map_cons,
      List.map_map, List.cons.injEq]
    refine ⟨by simp, ?_⟩
    apply List.map_congr_left
    intro k _
    simp only [Function.comp_apply, Prod.mk.injEq]
    exact ⟨by omega, trivial⟩

/-- Zero-shifted trace is the canonical trace. -/
theorem range_map_zero_shift (N : ℕ) :
    ((List.range N).map fun k => (0 + k + 1, N)) = canonicalTrace N := by
  unfold canonicalTrace
  apply List.map_congr_left
  intro k _
  simp

/-- C9 counterexample: a batch with zero units makes no progress callback
at all.  On the two-month data a one-year rolling window does not fit, so
the rolling analysis has `N = 0` windows, its trace is empty, and the
completed count reaches `N = 0` zero times — not exactly once as the
claim demands for every batch of `N` units. -/
theorem C9_counterexample :
    (rollingWindowsOf data2 1 1).length = 0 ∧
    (rolling_window_analysis opsZero (1 / 50) DCAPureStrategy data2 1 1 .M 1000).2 = [] ∧
    (((rolling_window_analysis opsZero (1 / 50) DCAPureStrategy data2 1 1 .M 1000).2.map
        Prod.fst).count (rollingWindowsOf data2 1 1).length) = 0 :=
  ⟨by with_unfolding_all decide, by with_unfolding_all decide,
   by with_unfolding_all decide⟩

/-- C9 (amended): all four harness modes invoke the progress callback once
per unit regardless of success or failure: their traces are exactly
`(1, N), …, (N, N)` with `N` the batch size, whatever the configured
worker-pool size for the Monte Carlo mode; consequently the completed
counts are non-decreasing, there are exactly `N` callback invocations,
and for a non-empty batch (`1 ≤ N`) the count reaches `N` exactly once —
an empty batch, by contrast, makes no callback at all, so it never
reaches its `N = 0`. -/
theorem C9_progress_monotonicity (ops : RealOps) (rf : ℚ) (strategy : Strategy)
    (md : MarketData) (test_dates : List ℕ) (end_date : Option ℕ) (freq : Frequency)
    (base : ℚ) (num_workers : ℕ) (sims : List SimWindow) (window_years : ℚ)
    (step_months : ℕ) (markets : List (String × MarketData)) (sd ed : Option ℕ) :
    ((test_fixed_start_points ops rf strategy md test_dates end_date freq base).2 =
      canonicalTrace test_dates.length)
    ∧ ((monte_carlo_simulation ops rf strategy md freq base num_workers sims).2 =
      canonicalTrace sims.length)
    ∧ ((rolling_window_analysis ops rf strategy md window_years step_months freq base).2 =
      canonicalTrace (rollingWindowsOf md window_years step_months).length)
    ∧ ((cross_market_test ops rf strategy markets sd ed freq base).2 =
      canonicalTrace markets.length)
    ∧ (∀ N, List.Chain' (· ≤ ·) ((canonicalTrace N).map Prod.fst))
    ∧ (∀ N, (canonicalTrace N).length = N)
    ∧ (∀ N, 1 ≤ N → ((canonicalTrace N).map Prod.fst).count N = 1) := by
  refine ⟨?_, ?_, ?_, ?_, ?_, ?_, ?_⟩
  · simp only [test_fixed_start_points, fixedLoop_trace]
    exact range_map_zero_shift _
  · simp only [monte_carlo_simulation]
    split
    · simp only [monteCarloLoop_trace]
      exact range_map_zero_shift _
    · simp only [monteCarloLoop_trace]
      exact range_map_zero_shift _
  · simp only [rolling_window_analysis, rollingLoop_trace]
    exact range_map_zero_shift _
  · simp only [cross_market_test, crossLoop_trace]
    exact range_map_zero_shift _
  · intro N
    have hmap : (canonicalTrace N).map Prod.fst = (List.range N).map (· + 1) := by
      simp [canonicalTrace, List.map_map, Function.comp]
    rw [hmap]
    rw [List.chain'_iff_pairwise]
    have hp : List.Pairwise (· < ·) (List.range N) := List.pairwise_lt_range N
    have hp2 : List.Pairwise (· < ·) ((List.range N).map (· + 1)) :=
      hp.map _ (fun a b h => by omega)
    exact hp2.imp le_of_lt
  · intro N
    simp [canonicalTrace]
  · intro N hN
    have hmap : (canonicalTrace N).map Prod.fst = (List.range N).map (· + 1) := by
      simp [canonicalTrace, List.map_map, Function.comp]
    rw [hmap]
    induction N with
    | zero => omega
    | succ n ih =>
      rw [List.range_succ, List.map_append]
      rcases Nat.eq_zero_or_pos n with hn | hn
      · subst hn
        simp
      · rw [List.count_append]
        have h1 : ((List.range n).map (· + 1)).count (n + 1) = 0 := by
          rw [List.count_eq_zero]
          intro hmem
          obtain ⟨k, hk, hk2⟩ := List.mem_map.mp hmem
          rw [List.mem_range] at hk
          omega
        simp [h1]

/-- Witness for C9 at a singleton batch in each mode. -/
theorem C9_witness :
    ((test_fixed_start_points opsZero (1 / 50) DCAPureStrategy data2 [0] none .M 1000).2 =
      canonicalTrace 1)
    ∧ ((monte_carlo_simulation opsZero (1 / 50) DCAPureStrategy data2 .M 1000 4
        [⟨0, 100⟩]).2 = canonicalTrace 1)
    ∧ ((canonicalTrace 1).map Prod.fst).count 1 = 1 :=
  ⟨(C9_progress_monotonicity opsZero (1 / 50) DCAPureStrategy data2 [0] none .M 1000 4
      [⟨0, 100⟩] 1 1 [] none none).1,
   (C9_progress_monotonicity opsZero (1 / 50) DCAPureStrategy data2 [0] none .M 1000 4
      [⟨0, 100⟩] 1 1 [] none none).2.1,
   (C9_progress_monotonicity opsZero (1 / 50) DCAPureStrategy data2 [0] none .M 1000 4
      [⟨0, 100⟩] 1 1 [] none none).2.2.2.2.2.2 1 (by norm_num)⟩

end DCA
